import Mathlib

/-!
Verification development for the Gmail backup/export core of the
mcp-google-services repository.

The Python source is shallowly embedded: pure functions become Lean
functions, stateful code becomes explicit state passing, fallible code
returns Except, machine floats used only as clock readings become exact
rationals, and Python ints become Int/Nat.  Calls into the Python standard
library (base64, email.header, email.utils, the MIME object model of
email.message) are modelled by a record of collaborator functions
(PyLib below) whose contracts are the documented behaviour of those
library calls; everything written in the repository itself is translated
definitionally from the source files.
-/

namespace GmailCore

/-- Lowercasing of one character, as Python str.lower acts on the ASCII
range (header names in this code base are ASCII). -/
def pyLowerChar (c : Char) : Char :=
  if 65 ≤ c.toNat ∧ c.toNat ≤ 90 then Char.ofNat (c.toNat + 32) else c

/-- Lowercasing of a string, character by character. -/
def pyLowerStr (s : String) : String :=
  String.mk (s.data.map pyLowerChar)

/-- Python substring containment test, the binary operator written
as membership of one string in another. -/
def strContains (s pat : String) : Bool :=
  s.data.tails.any (fun t => pat.data.isPrefixOf t)

/-- Python truthiness of an optional string: None and the empty string
are falsy, any other string is truthy. -/
def pyTruthy : Option String → Bool
  | none => false
  | some s => s ≠ ""

/-- Truncation of a rational toward zero, the behaviour of the Python
int() conversion applied to a float. -/
def pyTrunc (q : ℚ) : ℤ :=
  if 0 ≤ q then ⌊q⌋ else -⌊-q⌋

/-- Assignment into a Python dict modelled as an association list that
keeps first-insertion order: an existing key is overwritten in place,
a new key is appended at the end. -/
def insertAssoc {α : Type} (l : List (String × α)) (k : String) (v : α) :
    List (String × α) :=
  if l.any (fun p => p.1 = k) then
    l.map (fun p => if p.1 = k then (k, v) else p)
  else
    l ++ [(k, v)]

/-- Lookup in a Python dict modelled as an association list. -/
def lookupAssoc {α : Type} (l : List (String × α)) (k : String) : Option α :=
  (l.find? (fun p => p.1 = k)).map (fun p => p.2)

/-- Slicing a list into consecutive chunks of size n, the semantics of
the Python idiom iterating range(0, len(l), n) and taking l[i:i+n].
A step of 0 raises in Python; the embedding returns no chunks there and
all statements about chunking assume a positive chunk size. -/
def pychunks {α : Type} : List α → ℕ → List (List α)
  | _, 0 => []
  | [], _ => []
  | a :: l, n + 1 =>
    (a :: l).take (n + 1) :: pychunks ((a :: l).drop (n + 1)) (n + 1)
termination_by l n => l.length
decreasing_by
  simp only [List.length_drop, List.length_cons]
  omega

/-- Structural model of the MIME object tree produced by
email.message_from_bytes and consumed by email_message.walk: a leaf part
carries its content type, its Content-Disposition header value (empty
string when the header is missing), its filename and its
transfer-decoded payload bytes (none when get_payload(decode=True)
returns None); a container carries its subparts in order. -/
inductive MimeMsg where
  | part (ctype : String) (disposition : String) (filename : Option String)
      (payload : Option (List ℕ)) : MimeMsg
  | multi (ctype : String) (disposition : String) (parts : List MimeMsg) : MimeMsg

/-- Content type of a MIME node, the get_content_type accessor. -/
def MimeMsg.ctype : MimeMsg → String
  | .part c _ _ _ => c
  | .multi c _ _ => c

/-- Content-Disposition header value of a MIME node as a string. -/
def MimeMsg.disposition : MimeMsg → String
  | .part _ d _ _ => d
  | .multi _ d _ => d

/-- Filename of a MIME node, the get_filename accessor. -/
def MimeMsg.filename : MimeMsg → Option String
  | .part _ _ f _ => f
  | .multi _ _ _ => none

/-- Transfer-decoded payload of a MIME node: get_payload(decode=True)
returns the decoded bytes of a leaf and None on a multipart container. -/
def MimeMsg.payloadBytes : MimeMsg → Option (List ℕ)
  | .part _ _ _ p => p
  | .multi _ _ _ => none

mutual

/-- Preorder traversal of a MIME tree, the email_message.walk iterator:
the node itself followed by the recursive walk of each subpart. -/
def MimeMsg.walkNodes : MimeMsg → List MimeMsg
  | .part c d f p => [.part c d f p]
  | .multi c d ps => .multi c d ps :: MimeMsg.walkList ps

/-- Walk of a list of sibling MIME parts in order. -/
def MimeMsg.walkList : List MimeMsg → List MimeMsg
  | [] => []
  | m :: ms => m.walkNodes ++ MimeMsg.walkList ms

end

/-- Whether a MIME node is a multipart container, the is_multipart test. -/
def MimeMsg.isMultipart : MimeMsg → Bool
  | .part _ _ _ _ => false
  | .multi _ _ _ => true

/-- Record of the Python standard-library collaborators the parser and
writer call into.  Each field models one library function at the level
of its documented contract: header decoding per RFC 2047 (none models a
raised exception), date parsing (none models a raised exception),
base64url decoding to bytes (none models binascii.Error), UTF-8 decoding
with errors ignored (total), UTF-8 encoding, parsing bytes into a MIME
tree, RFC 2822 date formatting from an epoch timestamp, mktime on a
datetime (timestamps are rationals), and the strftime timestamp used in
backup file names. -/
structure PyLib where
  decode_header_std : String → Option String
  parsedate_to_datetime : String → Option ℚ
  dateutil_parse : String → Option ℚ
  urlsafe_b64decode : String → Option (List ℕ)
  utf8_ignore : List ℕ → String
  utf8_encode : String → List ℕ
  message_from_bytes : List ℕ → MimeMsg
  formatdate : ℚ → String
  mktime : ℚ → ℚ
  strftime_ts : ℚ → String

/-- Header list entry of the provider message payload; the source reads
both fields with .get and an empty-string default, which the embedding
folds into plain strings. -/
structure GmailHeader where
  name : String := ""
  value : String := ""
deriving DecidableEq

/-- Body record of a provider payload or part.  Absent dict keys read
with a default collapse to that default; attachmentId is read without a
default so its absence stays observable.  The filename is read from this
body record, exactly where the source looks for it. -/
structure GmailBody where
  data : String := ""
  attachmentId : Option String := none
  filename : String := ""
  size : ℤ := 0
deriving DecidableEq

/-- One entry of the payload parts list of a provider message. -/
structure GmailPart where
  mimeType : String := ""
  body : GmailBody := {}
deriving DecidableEq

/-- Payload of a provider message; a missing payload dict behaves as an
empty one because every read uses a defaulted .get. -/
structure GmailPayload where
  mimeType : String := ""
  headers : List GmailHeader := []
  body : GmailBody := {}
  parts : List GmailPart := []
deriving DecidableEq

/-- Raw provider message as delivered by the remote API: top-level
scalars, the payload tree and the optional base64url raw RFC 822 blob.
The id and threadId are read without defaults, so absence is kept as
none. -/
structure GmailMessage where
  id : Option String := none
  threadId : Option String := none
  labelIds : List String := []
  snippet : String := ""
  sizeEstimate : ℤ := 0
  payload : GmailPayload := {}
  raw : Option String := none
deriving DecidableEq

/-- Pair of optional text renditions of a message body; empty string
means not populated, matching the source initialisation. -/
structure ParsedBody where
  text : String := ""
  html : String := ""
deriving DecidableEq

/-- Attachment descriptor recorded by the parser: metadata only. -/
structure AttachmentMeta where
  attachment_id : Option String := none
  filename : String := ""
  mime_type : String := ""
  size : ℤ := 0
deriving DecidableEq

/-- Normalized message produced by EmailParser.parse_message. -/
structure ParsedMessage where
  id : Option String := none
  thread_id : Option String := none
  label_ids : List String := []
  snippet : String := ""
  size_estimate : ℤ := 0
  headers : List (String × String) := []
  body : ParsedBody := {}
  attachments : List AttachmentMeta := []
  date : Option ℚ := none
  from_ : String := ""
  to_ : String := ""
  subject : String := ""
deriving DecidableEq

namespace EmailParser

/-- Decoding of a possibly RFC 2047 encoded header value, the source
function EmailParser._decode_header: empty input yields the empty
string, a library failure falls back to the raw value. -/
def decode_header_val (lib : PyLib) (header_value : String) : String :=
  if header_value = "" then ""
  else
    match lib.decode_header_std header_value with
    | some s => s
    | none => header_value

/-- Best-effort date parsing, the source function
EmailParser._parse_date: empty input yields none, the primary parser is
tried first and the permissive fallback parser second, and a double
failure yields none rather than an error. -/
def parse_date_val (lib : PyLib) (date_str : String) : Option ℚ :=
  if date_str = "" then none
  else
    match lib.parsedate_to_datetime date_str with
    | some t => some t
    | none => lib.dateutil_parse date_str

/-- Decoding of base64url body data, the source function
EmailParser._decode_body_data: the input is padded with equals signs to
a multiple of four characters, decoded, and UTF-8 decoded ignoring bad
bytes; any decoding failure yields the empty string. -/
def decode_body_data (lib : PyLib) (data : String) : String :=
  let missing := data.length % 4
  let padded :=
    if missing = 0 then data
    else data ++ String.mk (List.replicate (4 - missing) '=')
  match lib.urlsafe_b64decode padded with
  | some bs => lib.utf8_ignore bs
  | none => ""

/-- Body and attachment extraction from the structured payload tree,
the source function EmailParser._parse_payload_structure.  A message
with no parts classifies its single body by content type with unknown
types treated as plain text; a multipart message examines only its
top-level parts, recording a part with an attachment id or filename as
attachment metadata and decoding other parts with data into the text or
html slot of the body. -/
def parse_payload_structure (lib : PyLib) (payload : GmailPayload) :
    ParsedBody × List AttachmentMeta :=
  let mime_type := payload.mimeType
  let parts := payload.parts
  if parts = [] then
    let data := payload.body.data
    if data ≠ "" then
      let decoded := decode_body_data lib data
      if strContains mime_type "text/plain" then ({ text := decoded }, [])
      else if strContains mime_type "text/html" then ({ html := decoded }, [])
      else ({ text := decoded }, [])
    else ({}, [])
  else
    parts.foldl
      (fun acc part =>
        let pmt := part.mimeType
        let pb := part.body
        if pyTruthy pb.attachmentId || pb.filename ≠ "" then
          (acc.1, acc.2 ++ [{ attachment_id := pb.attachmentId,
                              filename := pb.filename,
                              mime_type := pmt, size := pb.size }])
        else if pb.data ≠ "" then
          let decoded := decode_body_data lib pb.data
          if strContains pmt "text/plain" then ({ acc.1 with text := decoded }, acc.2)
          else if strContains pmt "text/html" then ({ acc.1 with html := decoded }, acc.2)
          else acc
        else acc)
      ({}, [])

/-- Body extraction from a parsed MIME tree, the source function
EmailParser._extract_body_from_email.  A multipart message walks every
node, skips nodes whose disposition mentions attachment, and assigns
each remaining decoded payload to the text or html slot by exact
content type; a single-part message classifies by content-type
substring with unknown types treated as plain text. -/
def extract_body_from_email (lib : PyLib) (email_message : MimeMsg) :
    String × String :=
  if email_message.isMultipart then
    email_message.walkNodes.foldl
      (fun acc node =>
        if strContains node.disposition "attachment" then acc
        else
          match node.payloadBytes with
          | some bs =>
            if bs ≠ [] then
              let decoded := lib.utf8_ignore bs
              if node.ctype = "text/plain" then (decoded, acc.2)
              else if node.ctype = "text/html" then (acc.1, decoded)
              else acc
            else acc
          | none => acc)
      ("", "")
  else
    match email_message.payloadBytes with
    | some bs =>
      if bs ≠ [] then
        let decoded := lib.utf8_ignore bs
        let content_type := email_message.ctype
        if strContains content_type "text/plain" then (decoded, "")
        else if strContains content_type "text/html" then ("", decoded)
        else (decoded, "")
      else ("", "")
    | none => ("", "")

/-- Attachment extraction from a parsed MIME tree, the source function
EmailParser._extract_attachments_from_email: on a multipart message
every walked node whose disposition mentions attachment and that has a
filename contributes one metadata record, with the filename passed
through header decoding and the size taken from the decoded payload
length. -/
def extract_attachments_from_email (lib : PyLib) (email_message : MimeMsg) :
    List AttachmentMeta :=
  if email_message.isMultipart then
    email_message.walkNodes.foldl
      (fun acc node =>
        if strContains node.disposition "attachment" then
          match node.filename with
          | some fn =>
            if fn ≠ "" then
              acc ++ [{ filename := decode_header_val lib fn,
                        mime_type := node.ctype,
                        size := ((node.payloadBytes.getD []).length : ℤ) }]
            else acc
          | none => acc
        else acc)
      []
  else []

/-- Body and attachment dispatch, the source function
EmailParser._parse_payload: a truthy raw blob selects raw mode, whose
base64url decode is not guarded and therefore propagates failure;
otherwise the structured payload tree is used. -/
def parse_payload (lib : PyLib) (payload : GmailPayload) (raw : Option String) :
    Except String (ParsedBody × List AttachmentMeta) :=
  if pyTruthy raw then
    match lib.urlsafe_b64decode (raw.getD "") with
    | none => .error "binascii.Error: invalid base64 input"
    | some raw_decoded =>
      let email_message := lib.message_from_bytes raw_decoded
      .ok (⟨(extract_body_from_email lib email_message).1,
            (extract_body_from_email lib email_message).2⟩,
           extract_attachments_from_email lib email_message)
  else
    .ok (parse_payload_structure lib payload)

/-- Flattening of the payload header list into the lower-cased header
dict: a fold of in-place assignments with the later occurrence of a name
winning. -/
def buildHeaders (headers : List GmailHeader) : List (String × String) :=
  headers.foldl (fun acc h => insertAssoc acc (pyLowerStr h.name) h.value) []

/-- Decode of a raw provider message into the normalized structured
representation, the source function EmailParser.parse_message.  The only
failure point is the unguarded base64url decode of a raw blob; every
other malformed field degrades to a default. -/
def parse_message (lib : PyLib) (message : GmailMessage) :
    Except String ParsedMessage :=
  let headers := buildHeaders message.payload.headers
  match parse_payload lib message.payload message.raw with
  | .error e => .error e
  | .ok (body, attachments) =>
    .ok { id := message.id
          thread_id := message.threadId
          label_ids := message.labelIds
          snippet := message.snippet
          size_estimate := message.sizeEstimate
          headers := headers
          body := body
          attachments := attachments
          date := parse_date_val lib ((lookupAssoc headers "date").getD "")
          from_ := (lookupAssoc headers "from").getD ""
          to_ := (lookupAssoc headers "to").getD ""
          subject := decode_header_val lib ((lookupAssoc headers "subject").getD "") }

end EmailParser

/-- Content of the email.message.EmailMessage value assembled by
EmailParser.to_rfc822: either no content, a single text part of the
given subtype, or the multipart/alternative pair with the html part
primary and the plain part attached as the alternative. -/
inductive Rfc822Content where
  | empty : Rfc822Content
  | single (subtype : String) (content : String) : Rfc822Content
  | alternative (htmlContent : String) (textContent : String) : Rfc822Content
deriving DecidableEq

/-- RFC 822 message assembled by EmailParser.to_rfc822, modelled at the
structure level: the explicitly set headers in order, and the content.
Headers survive the as_bytes and email.message_from_bytes pair
verbatim; body content does not survive byte-for-byte, because the
content manager that backs set_content stores the line-normalised
payload (see the toMime model below); multipart boundary bytes are
below the embedding. -/
structure Rfc822Message where
  headers : List (String × String) := []
  content : Rfc822Content := .empty
deriving DecidableEq

/-- One pass of bytes.splitlines line recognition as used on body
content: a carriage-return-newline pair and a lone carriage return
both count as one line break. -/
def normalizeLineSeps : List Char → List Char
  | [] => []
  | '\r' :: '\n' :: rest => '\n' :: normalizeLineSeps rest
  | '\r' :: rest => '\n' :: normalizeLineSeps rest
  | c :: rest => c :: normalizeLineSeps rest

namespace EmailParser

/-- Payload produced for text content by the content manager behind
set_content (email.contentmanager._encode_text): the content is split
into lines, the lines rejoined with the newline separator and one
trailing newline appended, so carriage-return line endings become
newlines and content that does not already end in a newline gains
exactly one.  The transformation is modelled at the character level;
it commutes with the UTF-8 byte encoding. -/
def encode_text (s : String) : String :=
  let n := normalizeLineSeps s.data
  if n.getLast? = some '\n' then String.mk n else String.mk (n ++ ['\n'])

/-- Encode of a normalized message back to RFC 822 form, the source
function EmailParser.to_rfc822: headers are set verbatim from the
headers mapping, then the content is set from the body with html
primary, a populated text body next to it becoming the attached
alternative part, a lone text body becoming plain content, and no
populated body leaving the content empty. -/
def to_rfc822 (message : ParsedMessage) : Rfc822Message :=
  { headers := message.headers
    content :=
      if message.body.html ≠ "" then
        if message.body.text ≠ "" then
          .alternative message.body.html message.body.text
        else .single "html" message.body.html
      else if message.body.text ≠ "" then .single "plain" message.body.text
      else .empty }

/-- MIME tree that email.message_from_bytes recovers from the
serialisation of an assembled RFC 822 message: the empty content is a
bare text/plain part with no payload, a single part carries the UTF-8
bytes of its line-normalised content (the content manager's
encode_text step above), and the alternative content is a multipart
container holding the html part followed by the plain part, each
likewise line-normalised. -/
def Rfc822Content.toMime (lib : PyLib) : Rfc822Content → MimeMsg
  | .empty => .part "text/plain" "" none none
  | .single subtype content =>
    .part ("text/" ++ subtype) "" none (some (lib.utf8_encode (encode_text content)))
  | .alternative htmlContent textContent =>
    .multi "multipart/alternative" ""
      [.part "text/html" "" none (some (lib.utf8_encode (encode_text htmlContent))),
       .part "text/plain" "" none (some (lib.utf8_encode (encode_text textContent)))]

/-- Decode of the serialised RFC 822 bytes of an assembled message,
that is parse_message applied to the provider representation of those
bytes: the header block is flattened through the same lower-casing
dict build, the convenience fields are derived the same way, and the
body is extracted from the MIME tree by the raw-mode extraction. -/
def decode_rfc822 (lib : PyLib) (m : Rfc822Message) : ParsedMessage :=
  let headers := buildHeaders (m.headers.map (fun p => { name := p.1, value := p.2 }))
  let bodyPair := extract_body_from_email lib (Rfc822Content.toMime lib m.content)
  { headers := headers
    body := { text := bodyPair.1, html := bodyPair.2 }
    attachments := extract_attachments_from_email lib (Rfc822Content.toMime lib m.content)
    date := parse_date_val lib ((lookupAssoc headers "date").getD "")
    from_ := (lookupAssoc headers "from").getD ""
    to_ := (lookupAssoc headers "to").getD ""
    subject := decode_header_val lib ((lookupAssoc headers "subject").getD "") }

end EmailParser

/-- One character of the character class of word characters in the
loose email pattern of the writer, ASCII letters, digits and the
underscore. -/
def isWordChar (c : Char) : Bool :=
  c.isAlphanum || c == '_'

/-- One character of the atom class of the loose email pattern: a word
character, a dot or a hyphen. -/
def isAtomChar (c : Char) : Bool :=
  isWordChar c || c == '.' || c == '-'

/-- Greedy match of the loose email pattern anchored at the start of
the character list: a nonempty atom run, an at sign, then within the
following maximal atom run the last dot that is preceded by at least
one atom and followed by a word character, and finally the maximal word
run after that dot.  For this pattern the greedy backtracking search of
the re module yields exactly this decomposition. -/
def emailMatchAt (cs : List Char) : Option (List Char) :=
  let a := cs.takeWhile isAtomChar
  if a.isEmpty then none
  else
    match cs.drop a.length with
    | '@' :: rest =>
      let b := rest.takeWhile isAtomChar
      let dots := (List.range b.length).filter
        (fun k => decide (1 ≤ k) && (b.getD k ' ' == '.')
          && isWordChar (b.getD (k + 1) ' '))
      match dots.getLast? with
      | some k =>
        let w := (b.drop (k + 1)).takeWhile isWordChar
        some (a ++ '@' :: (b.take k ++ '.' :: w))
      | none => none
    | _ => none

/-- Leftmost search of the loose email pattern, the semantics of
re.search: positions are tried left to right and the first position
at which a match exists wins. -/
def emailSearch : List Char → Option (List Char)
  | [] => none
  | c :: rest =>
    match emailMatchAt (c :: rest) with
    | some m => some m
    | none => emailSearch rest

namespace MBOXGenerator

/-- Email address extraction from a header value, the source function
MBOXGenerator._extract_email: an empty value yields none, otherwise the
loose pattern is searched for and the matched substring returned. -/
def extract_email (header_value : String) : Option String :=
  if header_value = "" then none
  else (emailSearch header_value.data).map (fun l => String.mk l)

/-- Envelope separator line, the source function
MBOXGenerator._format_from_line: the sender is the extracted address of
the from field with the sentinel substituted when none is found, the
date is the reformatted parsed message date or the current wall-clock
time when the date is absent, and the line is the word From, the
sender, two spaces and the date string.  The parsed date is a datetime
value (never a string on this path), so the datetime branch of the
source applies. -/
def format_from_line (lib : PyLib) (now : ℚ) (message : ParsedMessage) : String :=
  let sender_email := (extract_email message.from_).getD "unknown@unknown"
  let date_str :=
    match message.date with
    | some d => lib.formatdate (lib.mktime d)
    | none => lib.formatdate now
  "From " ++ sender_email ++ "  " ++ date_str

/-- One archive record: the envelope line followed by the RFC 822
message written after it.  The writer also emits the trailing blank
separator, a byte-level detail carried by the record boundary here. -/
abbrev ArchiveEntry : Type := String × Rfc822Message

/-- Append of one message to the archive, the source method
MBOXGenerator.add_message: the envelope line is computed and written,
then the RFC 822 encoding of the message. -/
def add_message (lib : PyLib) (now : ℚ) (entries : List ArchiveEntry)
    (message : ParsedMessage) : List ArchiveEntry :=
  entries ++ [(format_from_line lib now message, EmailParser.to_rfc822 message)]

end MBOXGenerator

/-- Quota governor state, the fields of core.rate_limiter.RateLimiter.
The request_times deque is carried for fidelity although no decision
reads it. -/
structure RateLimiter where
  quota_per_second : ℤ
  burst_size : ℤ
  current_quota : ℤ
  last_reset : ℚ
  request_times : List ℚ
deriving DecidableEq

namespace RateLimiter

/-- Constructor of the governor, RateLimiter.__init__: a missing or
zero burst argument falls back to the per-second quota (the source uses
the Python or operator, under which a zero burst is falsy), and the
available quota starts at the burst size. -/
def init (quota_per_second : ℤ) (burst_size : Option ℤ) (now : ℚ) : RateLimiter :=
  let b :=
    match burst_size with
    | none => quota_per_second
    | some v => if v = 0 then quota_per_second else v
  { quota_per_second := quota_per_second
    burst_size := b
    current_quota := b
    last_reset := now
    request_times := [] }

/-- Result of one blocking acquire: the successor state and the length
of the sleep performed (zero when no wait was needed). -/
structure WaitResult where
  state : RateLimiter
  slept : ℚ
deriving DecidableEq

/-- Blocking acquire, the source method RateLimiter.wait_if_needed.
When at least one second has elapsed the quota is refilled by the
truncated product of elapsed time and rate, capped at the burst size,
and stale request timestamps are dropped from the front of the deque.
If the refilled quota still falls short of the cost, the shortfall
divided by the rate plus a tenth of a second is slept and the quota is
reset to the full burst; in every case the cost is then deducted and
the call time recorded. -/
def wait_if_needed (r : RateLimiter) (now : ℚ) (quota_cost : ℤ) : WaitResult :=
  let elapsed := now - r.last_reset
  let r1 :=
    if 1 ≤ elapsed then
      { r with
        current_quota :=
          min r.burst_size (r.current_quota + pyTrunc (elapsed * (r.quota_per_second : ℚ)))
        last_reset := now
        request_times := r.request_times.dropWhile (fun t => t < now - 1) }
    else r
  if r1.current_quota < quota_cost then
    let needed := quota_cost - r1.current_quota
    let wait_seconds := (needed : ℚ) / (r1.quota_per_second : ℚ) + 1 / 10
    { state :=
        { r1 with
          current_quota := r1.burst_size - quota_cost
          request_times := r1.request_times ++ [now] }
      slept := wait_seconds }
  else
    { state :=
        { r1 with
          current_quota := r1.current_quota - quota_cost
          request_times := r1.request_times ++ [now] }
      slept := 0 }

/-- Manual reset, the source method RateLimiter.reset_quota. -/
def reset_quota (r : RateLimiter) (now : ℚ) : RateLimiter :=
  { r with
    current_quota := r.burst_size
    last_reset := now
    request_times := [] }

/-- Passive observation, the source method RateLimiter.get_current_quota:
the same refill calculation without blocking and without deque cleanup,
returning the available quota and the mutated state. -/
def get_current_quota (r : RateLimiter) (now : ℚ) : ℤ × RateLimiter :=
  let elapsed := now - r.last_reset
  let r1 :=
    if 1 ≤ elapsed then
      { r with
        current_quota :=
          min r.burst_size (r.current_quota + pyTrunc (elapsed * (r.quota_per_second : ℚ)))
        last_reset := now }
    else r
  (r1.current_quota, r1)

end RateLimiter

/-- One public call against the governor, labelled with the wall-clock
time at which the internal clock is read. -/
inductive LimiterOp where
  | wait (now : ℚ) (cost : ℤ) : LimiterOp
  | observe (now : ℚ) : LimiterOp
  | reset (now : ℚ) : LimiterOp
deriving DecidableEq

/-- State transition of one governor call. -/
def limiterStep (r : RateLimiter) : LimiterOp → RateLimiter
  | .wait now cost => (r.wait_if_needed now cost).state
  | .observe now => (r.get_current_quota now).2
  | .reset now => r.reset_quota now

/-- Run of a call sequence against the governor. -/
def limiterRun (r : RateLimiter) (ops : List LimiterOp) : RateLimiter :=
  ops.foldl limiterStep r

/-- One page of the remote message-id listing: the ids of the returned
message stubs and the optional continuation token. -/
structure ListPage where
  messages : List String := []
  nextPageToken : Option String := none
deriving DecidableEq

/-- Remote collaborators of the backup pipeline: the paged listing call
and the batched full-content retrieval call of GmailAPI.  An error
value models the call raising; the pipeline is quantified over these,
matching their out-of-scope status in the specification. -/
structure Oracles where
  list_messages : Option String → ℕ → Option String → Except String ListPage
  batch_get_messages : List String → Except String (List GmailMessage)

/-- Result record of a backup run, the dataclass BackupResult. -/
structure BackupResult where
  success : Bool
  message_count : ℕ
  backup_path : String
  start_time : ℚ
  end_time : Option ℚ := none
  error : Option String := none
  messages_processed : ℕ := 0
  messages_failed : ℕ := 0
deriving DecidableEq

namespace GmailBackup

/-- Listing phase of GmailBackup._backup_messages: while fewer ids than
requested have been gathered, one page of at most the remaining count
(capped at one hundred) is listed; an empty page or a missing
continuation token ends the loop, and a failure of the listing call
propagates. -/
def collectIds (oc : Oracles) (query : Option String) (max_results : ℕ)
    (acc : List String) (page_token : Option String) :
    Except String (List String) :=
  if h : acc.length < max_results then
    match oc.list_messages query (min 100 (max_results - acc.length)) page_token with
    | .error e => .error e
    | .ok page =>
      if hm : page.messages = [] then .ok acc
      else
        match page.nextPageToken with
        | none => .ok (acc ++ page.messages)
        | some t => collectIds oc query max_results (acc ++ page.messages) (some t)
  else .ok acc
termination_by max_results - acc.length
decreasing_by
  have : 0 < page.messages.length := List.length_pos.mpr hm
  simp only [List.length_append]
  omega

/-- Accumulator of the batch retrieval phase: the processed and failed
counters, the archive contents written so far, and the number of
batched retrieval calls issued. -/
structure BatchState where
  processed : ℕ := 0
  failed : ℕ := 0
  archive : List MBOXGenerator.ArchiveEntry := []
  calls : ℕ := 0
deriving DecidableEq

/-- Per-message body of the inner try of GmailBackup._backup_messages:
the message is parsed and appended to the archive, a failure
incrementing the failed counter and skipping only that message. -/
def processMessage (lib : PyLib) (now : ℚ) (s : BatchState) (m : GmailMessage) :
    BatchState :=
  match EmailParser.parse_message lib m with
  | .error _ => { s with failed := s.failed + 1 }
  | .ok parsed =>
    { s with
      processed := s.processed + 1
      archive := MBOXGenerator.add_message lib now s.archive parsed }

/-- Processing of one id chunk in GmailBackup._backup_messages: one
batched retrieval call is issued; if it raises the whole chunk is
counted failed and the pipeline moves on, otherwise each returned
message goes through the per-message step in order. -/
def processChunk (oc : Oracles) (lib : PyLib) (now : ℚ)
    (st : BatchState) (batch : List String) : BatchState :=
  match oc.batch_get_messages batch with
  | .error _ =>
    { st with failed := st.failed + batch.length, calls := st.calls + 1 }
  | .ok messages =>
    messages.foldl (processMessage lib now) { st with calls := st.calls + 1 }

/-- Batch retrieval phase of GmailBackup._backup_messages over the
collected ids: the ids are cut into chunks of the given size (the
source fixes one hundred) and each chunk is processed in order. -/
def processBatches (oc : Oracles) (lib : PyLib) (now : ℚ)
    (message_ids : List String) (batch_size : ℕ) : BatchState :=
  (pychunks message_ids batch_size).foldl (processChunk oc lib now) {}

/-- Backup folder path used by the orchestrator, the configured
default. -/
def backup_folder : String := "backups/gmail"

/-- Internal backup driver, the source method
GmailBackup._backup_messages: the archive path is derived from the
wall clock and the backup type, the ids are collected and truncated to
the requested maximum, an empty collection short-circuits to an empty
successful result, and otherwise the batch phase runs and the result
reports success with the two counters.  The returned archive entries
are the contents appended to the file at the returned path. -/
def backup_messages (oc : Oracles) (lib : PyLib) (now : ℚ)
    (query : Option String) (max_results : ℕ) (backup_type : String) :
    Except String (BackupResult × List MBOXGenerator.ArchiveEntry) :=
  let backup_path :=
    backup_folder ++ "/gmail_backup_" ++ backup_type ++ "_" ++ lib.strftime_ts now ++ ".mbox"
  match collectIds oc query max_results [] none with
  | .error e => .error e
  | .ok collected =>
    let message_ids := collected.take max_results
    if message_ids = [] then
      .ok ({ success := true
             message_count := 0
             backup_path := backup_path
             start_time := now }, [])
    else
      let st := processBatches oc lib now message_ids 100
      .ok ({ success := true
             message_count := st.processed
             backup_path := backup_path
             start_time := now
             messages_processed := st.processed
             messages_failed := st.failed }, st.archive)

/-- Persisted per-account watermark, one value of the backup state
JSON document.  Timestamps are carried as rationals, the isoformat
round trip being exact. -/
structure UserState where
  last_backup_time : Option ℚ := none
  last_backup_type : Option String := none
deriving DecidableEq

/-- Filesystem state threaded through the orchestrator: the backup
state file (none when the file does not exist) and the archive files
by path, each an append-only list of records. -/
structure World where
  stateFile : Option (List (String × UserState)) := none
  archives : List (String × List MBOXGenerator.ArchiveEntry) := []
deriving DecidableEq

/-- Watermark read, the source method GmailBackup._get_last_backup_time:
a missing state file, a missing account entry or a missing timestamp
all yield none. -/
def get_last_backup_time (w : World) (user_id : String) : Option ℚ :=
  match w.stateFile with
  | none => none
  | some state =>
    match lookupAssoc state user_id with
    | some us => us.last_backup_time
    | none => none

/-- Watermark write, the source method GmailBackup._update_backup_state:
the state document is read (a missing file contributing an empty
document), the account entry is created if needed, its timestamp is set
to the given backup time and its type marker to incremental, and the
document is written back. -/
def update_backup_state (w : World) (user_id : String) (backup_time : ℚ) : World :=
  let state := w.stateFile.getD []
  let us := (lookupAssoc state user_id).getD {}
  { w with
    stateFile := some (insertAssoc state user_id
      { us with
        last_backup_time := some backup_time
        last_backup_type := some "incremental" }) }

/-- Append of freshly written records to the archive file at a path,
the effect of the writer opened in append mode. -/
def writeArchive (w : World) (path : String)
    (entries : List MBOXGenerator.ArchiveEntry) : World :=
  { w with
    archives := insertAssoc w.archives path
      ((lookupAssoc w.archives path).getD [] ++ entries) }

/-- Incremental backup, the source method GmailBackup.incremental_backup.
The clock is read at entry (start_time), again inside the driver
(drive_time) and at exit (end_time).  A falsy query is replaced by an
after filter derived from the stored watermark when one exists, the
maximum defaults to the configured one thousand, and after a successful
run the watermark is set to the run start time.  Any failure of the
driver is caught and converted into a failed result carrying the error
message, leaving the world untouched. -/
def incremental_backup (oc : Oracles) (lib : PyLib) (w : World)
    (user_id : String) (query : Option String) (max_results : Option ℕ)
    (start_time drive_time end_time : ℚ) : BackupResult × World :=
  let last_backup_time := get_last_backup_time w user_id
  let query2 :=
    if ¬ pyTruthy query then
      match last_backup_time with
      | some t => some ("after:" ++ toString (pyTrunc t))
      | none => none
    else query
  let mr := max_results.getD 1000
  match backup_messages oc lib drive_time query2 mr "incremental" with
  | .error e =>
    ({ success := false
       message_count := 0
       backup_path := ""
       start_time := start_time
       end_time := some end_time
       error := some e }, w)
  | .ok (result, entries) =>
    let w1 := writeArchive w result.backup_path entries
    let w2 := if result.success then update_backup_state w1 user_id start_time else w1
    ({ result with start_time := start_time, end_time := some end_time }, w2)

/-- Full backup, the source method GmailBackup.full_backup: the same
driver with the query passed through unchanged, a higher default
maximum of ten thousand, and no watermark read or write.  Any failure
of the driver is caught and converted into a failed result carrying the
error message. -/
def full_backup (oc : Oracles) (lib : PyLib) (w : World)
    (query : Option String) (max_results : Option ℕ)
    (start_time drive_time end_time : ℚ) : BackupResult × World :=
  let mr := max_results.getD 10000
  match backup_messages oc lib drive_time query mr "full" with
  | .error e =>
    ({ success := false
       message_count := 0
       backup_path := ""
       start_time := start_time
       end_time := some end_time
       error := some e }, w)
  | .ok (result, entries) =>
    let w1 := writeArchive w result.backup_path entries
    ({ result with start_time := start_time, end_time := some end_time }, w1)

end GmailBackup

/-- Cost side condition of a governor call: quota costs are nonnegative
(the call sites of the source pass one or five units). -/
def costNonneg : LimiterOp → Prop
  | .wait _ cost => 0 ≤ cost
  | .observe _ => True
  | .reset _ => True

instance (op : LimiterOp) : Decidable (costNonneg op) := by
  cases op <;> simp only [costNonneg] <;> infer_instance

/-- Concrete collaborator record used to instantiate theorems with
hypotheses on particular inputs. -/
def lib0 : PyLib :=
  { decode_header_std := fun _ => none
    parsedate_to_datetime := fun _ => none
    dateutil_parse := fun _ => none
    urlsafe_b64decode := fun s => some (s.data.map Char.toNat)
    utf8_ignore := fun l => String.mk (l.map Char.ofNat)
    utf8_encode := fun s => s.data.map Char.toNat
    message_from_bytes := fun _ => .part "text/plain" "" none none
    formatdate := fun q => "rfc2822:" ++ toString q
    mktime := fun q => q
    strftime_ts := fun _ => "20240101_000000" }

/-- Success of one batched retrieval call, including parseability of
its results: the call returns one message per requested id and each
returned message decodes. -/
def chunkOk (oc : Oracles) (lib : PyLib) (c : List String) : Prop :=
  ∃ msgs, oc.batch_get_messages c = .ok msgs ∧ msgs.length = c.length ∧
    ∀ m ∈ msgs, ∃ p, EmailParser.parse_message lib m = .ok p

/-- Minimal parseable provider message around one id, used to
instantiate oracle hypotheses on concrete inputs. -/
def mkTestMsg (s : String) : GmailMessage := { id := some s }

/-- Two hundred and fifty distinct message ids. -/
def ids250 : List String := (List.range 250).map (fun i => toString i)

/-- One hundred and fifty distinct message ids. -/
def ids150 : List String := (List.range 150).map (fun i => toString i)

/-- Oracle whose listing returns nothing and whose batched retrieval
always succeeds with one message per id. -/
def ocAllOk : Oracles :=
  { list_messages := fun _ _ _ => .ok { }
    batch_get_messages := fun c => .ok (c.map mkTestMsg) }

/-- Oracle whose batched retrieval raises exactly on the fifty-id
chunk and succeeds elsewhere. -/
def ocFailSecond : Oracles :=
  { list_messages := fun _ _ _ => .ok { }
    batch_get_messages := fun c =>
      if c.length = 50 then .error "network error" else .ok (c.map mkTestMsg) }

/-- Oracle whose listing yields one empty page and whose batched
retrieval is never reached. -/
def ocEmptyList : Oracles :=
  { list_messages := fun _ _ _ => .ok { }
    batch_get_messages := fun _ => .error "unreachable" }

/-- Oracle whose listing raises immediately. -/
def ocListErr : Oracles :=
  { list_messages := fun _ _ _ => .error "HttpError 500"
    batch_get_messages := fun _ => .error "unreachable" }

/-- Nonempty starting world with an existing watermark, for frame
statements. -/
def w9 : GmailBackup.World :=
  { stateFile := some [("me",
      { last_backup_time := some 42, last_backup_type := some "incremental" })]
    archives := [("old.mbox", [])] }

/-- Concrete provider message with addressing headers and a plain-text
body in structured mode. -/
def msg2 : GmailMessage :=
  { id := some "m1"
    threadId := some "t1"
    payload :=
      { mimeType := "text/plain"
        headers := [{ name := "From", value := "alice@example.com" },
                    { name := "To", value := "bob@example.com" },
                    { name := "Subject", value := "Greetings" }]
        body := { data := "SGVsbG8" } } }

/-- Expected decode of msg2 under lib0: the body data comes back from
the b64-model round trip with its padding, and the headers land
lower-cased. -/
def p2 : ParsedMessage :=
  { id := some "m1"
    thread_id := some "t1"
    headers := [("from", "alice@example.com"), ("to", "bob@example.com"),
                ("subject", "Greetings")]
    body := { text := "SGVsbG8=" }
    from_ := "alice@example.com"
    to_ := "bob@example.com"
    subject := "Greetings" }

-- THEOREMS

/-- Quota after a transition never reads the burst size of anything but
the starting state: one governor call leaves burst_size unchanged. -/
theorem limiterStep_burst_size (r : RateLimiter) (op : LimiterOp) :
    (limiterStep r op).burst_size = r.burst_size := by
  cases op with
  | wait now cost =>
    simp only [limiterStep, RateLimiter.wait_if_needed]
    by_cases h1 : (1 : ℚ) ≤ now - r.last_reset <;> simp [h1] <;> split <;> rfl
  | observe now =>
    simp only [limiterStep, RateLimiter.get_current_quota]
    by_cases h1 : (1 : ℚ) ≤ now - r.last_reset <;> simp [h1]
  | reset now => rfl

/-- One governor call with a nonnegative cost preserves the bound of
the available quota by the burst size. -/
theorem limiterStep_quota_le (r : RateLimiter) (op : LimiterOp)
    (hc : costNonneg op) (h : r.current_quota ≤ r.burst_size) :
    (limiterStep r op).current_quota ≤ r.burst_size := by
  cases op with
  | wait now cost =>
    simp only [costNonneg] at hc
    simp only [limiterStep, RateLimiter.wait_if_needed]
    by_cases h1 : (1 : ℚ) ≤ now - r.last_reset <;> simp only [h1, if_true, if_false, reduceIte] <;>
      split <;> simp <;> omega
  | observe now =>
    simp only [limiterStep, RateLimiter.get_current_quota]
    by_cases h1 : (1 : ℚ) ≤ now - r.last_reset <;> simp [h1] <;> omega
  | reset now => simp [limiterStep, RateLimiter.reset_quota]

/-- Any run of nonnegative-cost governor calls keeps the quota bounded
and the burst size fixed. -/
theorem limiterRun_inv (ops : List LimiterOp) (r : RateLimiter)
    (hops : ∀ op ∈ ops, costNonneg op) (h : r.current_quota ≤ r.burst_size) :
    (limiterRun r ops).current_quota ≤ (limiterRun r ops).burst_size ∧
      (limiterRun r ops).burst_size = r.burst_size := by
  induction ops generalizing r with
  | nil => exact ⟨h, rfl⟩
  | cons op rest ih =>
    have hop := hops op (List.mem_cons_self op rest)
    have hrest : ∀ o ∈ rest, costNonneg o := fun o ho => hops o (List.mem_cons_of_mem op ho)
    have hstep : (limiterStep r op).current_quota ≤ (limiterStep r op).burst_size := by
      rw [limiterStep_burst_size]
      exact limiterStep_quota_le r op hop h
    have := ih (limiterStep r op) hrest hstep
    simpa [limiterRun, limiterStep_burst_size] using this

/-- Core of one blocking acquire: if the cost exceeds the passively
refilled available units (as observed by get_current_quota at the same
instant), the sleep is the integer shortfall over the rate plus the
tenth-of-a-second buffer, and the quota lands at burst_size minus
cost. -/
theorem wait_if_needed_short (r : RateLimiter) (now : ℚ) (cost : ℤ)
    (hlt : (r.get_current_quota now).1 < cost) :
    (r.wait_if_needed now cost).slept =
        ((cost - (r.get_current_quota now).1 : ℤ) : ℚ) / (r.quota_per_second : ℚ)
          + 1 / 10 ∧
      (r.wait_if_needed now cost).state.current_quota = r.burst_size - cost := by
  simp only [RateLimiter.get_current_quota] at hlt ⊢
  simp only [RateLimiter.wait_if_needed]
  by_cases h1 : (1 : ℚ) ≤ now - r.last_reset <;>
    simp only [h1, if_true, if_false, reduceIte] at hlt ⊢ <;>
    rw [if_pos hlt] <;> exact ⟨rfl, rfl⟩

/-- C3: when the requested cost exceeds the passively refilled
available units, wait_if_needed sleeps exactly the shortfall divided by
the rate plus the tenth-of-a-second margin (hence at least the margin),
then resets the available units to the full burst capacity and deducts
the cost, leaving burst_size minus cost; in particular a cost larger
than the burst capacity still completes in one call with exactly the
requested cost deducted, going negative. -/
theorem wait_if_needed_blocks_resets_and_deducts
    (r : RateLimiter) (now : ℚ) (cost : ℤ)
    (hq : 0 < r.quota_per_second) (hb : r.current_quota ≤ r.burst_size) :
    ((r.get_current_quota now).1 < cost →
      (r.wait_if_needed now cost).slept =
          ((cost - (r.get_current_quota now).1 : ℤ) : ℚ) / (r.quota_per_second : ℚ)
            + 1 / 10 ∧
        1 / 10 ≤ (r.wait_if_needed now cost).slept ∧
        (r.wait_if_needed now cost).state.current_quota = r.burst_size - cost) ∧
    (r.burst_size < cost →
      (r.wait_if_needed now cost).state.current_quota = r.burst_size - cost ∧
        (r.wait_if_needed now cost).state.current_quota < 0) := by
  constructor
  · intro hlt
    obtain ⟨hs, hd⟩ := wait_if_needed_short r now cost hlt
    refine ⟨hs, ?_, hd⟩
    rw [hs]
    have hnum : (0 : ℚ) ≤ ((cost - (r.get_current_quota now).1 : ℤ) : ℚ) := by
      exact_mod_cast (by omega : (0 : ℤ) ≤ cost - (r.get_current_quota now).1)
    have hden : (0 : ℚ) ≤ (r.quota_per_second : ℚ) := by exact_mod_cast hq.le
    have := div_nonneg hnum hden
    linarith
  · intro hover
    have hlt : (r.get_current_quota now).1 < cost := by
      simp only [RateLimiter.get_current_quota]
      by_cases h1 : (1 : ℚ) ≤ now - r.last_reset <;> simp [h1] <;> omega
    obtain ⟨_, hd⟩ := wait_if_needed_short r now cost hlt
    exact ⟨hd, by omega⟩

/-- C3 witness: a governor at rate ten starting full with burst ten,
asked for twenty-five units, sleeps eight fifths of a second (the
fifteen-unit shortfall over the rate plus the margin) and ends at
minus fifteen units. -/
theorem wait_if_needed_blocks_resets_and_deducts_witness :
    ((RateLimiter.init 10 none 0).wait_if_needed 0 25).slept = 8 / 5 ∧
      (1 : ℚ) / 10 ≤ ((RateLimiter.init 10 none 0).wait_if_needed 0 25).slept ∧
      ((RateLimiter.init 10 none 0).wait_if_needed 0 25).state.current_quota = -15 ∧
      ((RateLimiter.init 10 none 0).wait_if_needed 0 25).state.current_quota < 0 := by
  have hlt : ((RateLimiter.init 10 none 0).get_current_quota 0).1 < 25 := by
    norm_num [RateLimiter.init, RateLimiter.get_current_quota]
  have h := wait_if_needed_blocks_resets_and_deducts
    (RateLimiter.init 10 none 0) 0 25
    (by norm_num [RateLimiter.init]) (by norm_num [RateLimiter.init])
  have h1 := h.1 hlt
  have h2 := h.2 (by norm_num [RateLimiter.init])
  refine ⟨?_, h1.2.1, ?_, h2.2⟩
  · rw [h1.1]
    norm_num [RateLimiter.init, RateLimiter.get_current_quota]
  · simpa [RateLimiter.init] using h2.1

/-- C9: over every sequence of wait_if_needed, get_current_quota and
reset_quota calls with nonnegative costs, the stored quota never
exceeds the burst size; it is not bounded below by zero, for a call
whose cost exceeds the burst size leaves exactly burst_size minus cost,
a negative value from which later refills rebuild. -/
theorem quota_bounded_above_not_below
    (qps : ℤ) (b : Option ℤ) (t0 : ℚ) (ops : List LimiterOp)
    (hops : ∀ op ∈ ops, costNonneg op) :
    (limiterRun (RateLimiter.init qps b t0) ops).current_quota ≤
        (RateLimiter.init qps b t0).burst_size ∧
      (∀ (r : RateLimiter) (now : ℚ) (cost : ℤ),
        r.current_quota ≤ r.burst_size → r.burst_size < cost →
          (r.wait_if_needed now cost).state.current_quota = r.burst_size - cost ∧
            (r.wait_if_needed now cost).state.current_quota < 0) := by
  constructor
  · have hinit : (RateLimiter.init qps b t0).current_quota ≤
        (RateLimiter.init qps b t0).burst_size := le_refl _
    have := limiterRun_inv ops (RateLimiter.init qps b t0) hops hinit
    omega
  · intro r now cost hb hover
    have hlt : (r.get_current_quota now).1 < cost := by
      simp only [RateLimiter.get_current_quota]
      by_cases h1 : (1 : ℚ) ≤ now - r.last_reset <;> simp [h1] <;> omega
    have hmain : (r.wait_if_needed now cost).state.current_quota = r.burst_size - cost := by
      simp only [RateLimiter.get_current_quota] at hlt
      simp only [RateLimiter.wait_if_needed]
      by_cases h1 : (1 : ℚ) ≤ now - r.last_reset <;>
        simp only [h1, if_true, if_false, reduceIte] <;>
        rw [if_pos (by simpa [h1] using hlt)]
    exact ⟨hmain, by rw [hmain]; omega⟩

/-- C9 witness: a concrete call sequence ending with an over-burst
acquire stays bounded by the burst of ten, and the over-burst acquire
against the freshly initialised governor lands at minus fifteen. -/
theorem quota_bounded_above_not_below_witness :
    (limiterRun (RateLimiter.init 10 none 0)
        [.wait 0 5, .observe 1, .reset 2, .wait 3 25]).current_quota ≤ 10 ∧
      ((RateLimiter.init 10 none 0).wait_if_needed 0 25).state.current_quota = -15 ∧
      ((RateLimiter.init 10 none 0).wait_if_needed 0 25).state.current_quota < 0 := by
  have h := quota_bounded_above_not_below 10 none 0
    [.wait 0 5, .observe 1, .reset 2, .wait 3 25]
    (by intro op hop; fin_cases hop <;> simp [costNonneg])
  have h2 := h.2 (RateLimiter.init 10 none 0) 0 25 (by decide) (by decide)
  exact ⟨by simpa [RateLimiter.init] using h.1, by simpa [RateLimiter.init] using h2.1, h2.2⟩

/-- C7 counterexample: a raw provider message with no id at all decodes
without any failure, producing a normalized message whose id is absent;
the absence of an id is not a hard failure in parse_message. -/
theorem parse_message_missing_id_no_failure :
    EmailParser.parse_message lib0 { } = .ok { } ∧
      ({ } : ParsedMessage).id = none := by
  exact ⟨rfl, rfl⟩

/-- C7 amended: parse_message copies the raw message id field through
unchanged, so the id of a decoded message is present exactly when the
raw message carried one, and a missing id yields a successful decode
with an absent id rather than a hard failure for that message. -/
theorem parse_message_id_copied (lib : PyLib) (message : GmailMessage)
    (p : ParsedMessage) (h : EmailParser.parse_message lib message = .ok p) :
    p.id = message.id := by
  simp only [EmailParser.parse_message] at h
  cases hp : EmailParser.parse_payload lib message.payload message.raw with
  | error e => rw [hp] at h; cases h
  | ok pr =>
    rw [hp] at h
    cases h
    rfl

/-- C7 amended witness: the id-free message decodes to the id-free
normalized message. -/
theorem parse_message_id_copied_witness :
    ({ } : ParsedMessage).id = ({ } : GmailMessage).id :=
  parse_message_id_copied lib0 { } { } rfl

/-- C8: for a message whose from field contains no substring matching
the loose email pattern and whose parsed date is absent, the archive
record written by add_message carries the envelope line made of the
word From, the sentinel address, two spaces and the current wall-clock
time rendered by the RFC 2822 formatter. -/
theorem from_line_sentinel_and_current_time
    (lib : PyLib) (now : ℚ) (entries : List MBOXGenerator.ArchiveEntry)
    (message : ParsedMessage)
    (haddr : MBOXGenerator.extract_email message.from_ = none)
    (hdate : message.date = none) :
    MBOXGenerator.format_from_line lib now message =
        "From " ++ "unknown@unknown" ++ "  " ++ lib.formatdate now ∧
      MBOXGenerator.add_message lib now entries message =
        entries ++ [("From " ++ "unknown@unknown" ++ "  " ++ lib.formatdate now,
          EmailParser.to_rfc822 message)] := by
  have h1 : MBOXGenerator.format_from_line lib now message =
      "From " ++ "unknown@unknown" ++ "  " ++ lib.formatdate now := by
    rw [MBOXGenerator.format_from_line, haddr, hdate]
    rfl
  exact ⟨h1, by rw [MBOXGenerator.add_message, h1]⟩

/-- C8 witness: a message with a missing from header (empty from field)
and no parsed date is written with the sentinel envelope line and the
formatted current time. -/
theorem from_line_sentinel_and_current_time_witness :
    MBOXGenerator.format_from_line lib0 7 { from_ := "", date := none } =
        "From " ++ "unknown@unknown" ++ "  " ++ lib0.formatdate 7 ∧
      MBOXGenerator.add_message lib0 7 [] { from_ := "", date := none } =
        [("From " ++ "unknown@unknown" ++ "  " ++ lib0.formatdate 7,
          EmailParser.to_rfc822 { from_ := "", date := none })] := by
  have h := from_line_sentinel_and_current_time lib0 7 []
    { from_ := "", date := none } rfl rfl
  exact ⟨h.1, h.2⟩

/-- Chunking an empty list yields no chunks. -/
theorem pychunks_nil {α : Type} (n : ℕ) : pychunks ([] : List α) n = [] := by
  cases n with
  | zero => rw [pychunks]
  | succ m =>
    rw [pychunks]
    simp

/-- Unfolding of one chunking step on a nonempty list and positive
size. -/
theorem pychunks_pos {α : Type} (l : List α) (n : ℕ) (hn : 0 < n) (hl : l ≠ []) :
    pychunks l n = l.take n :: pychunks (l.drop n) n := by
  obtain ⟨a, t, rfl⟩ := List.exists_cons_of_ne_nil hl
  obtain ⟨m, rfl⟩ : ∃ m, n = m + 1 := ⟨n - 1, by omega⟩
  rw [pychunks]

/-- A nonempty list no longer than the chunk size forms one chunk. -/
theorem pychunks_small {α : Type} (l : List α) (n : ℕ) (hn : 0 < n)
    (hl : l ≠ []) (hle : l.length ≤ n) : pychunks l n = [l] := by
  rw [pychunks_pos l n hn hl, List.take_of_length_le hle,
    List.drop_eq_nil_of_le hle, pychunks_nil]

/-- The number of chunks is the ceiling of the length over the chunk
size. -/
theorem pychunks_length {α : Type} (l : List α) (n : ℕ) (hn : 0 < n) :
    (pychunks l n).length = (l.length + n - 1) / n := by
  by_cases hl : l = []
  · subst hl
    rw [pychunks_nil]
    simp [Nat.div_eq_of_lt (by omega : n - 1 < n)]
  · rw [pychunks_pos l n hn hl, List.length_cons,
      pychunks_length (l.drop n) n hn, List.length_drop]
    have hL : 1 ≤ l.length := List.length_pos.mpr hl
    have hr : l.length + n - 1 = (l.length - 1) + n := by omega
    rw [hr, Nat.add_div_right _ hn]
    rcases le_or_lt l.length n with hc | hc
    · have h0 : l.length - n = 0 := by omega
      rw [h0]
      rw [Nat.div_eq_of_lt (by omega : 0 + n - 1 < n),
        Nat.div_eq_of_lt (by omega : l.length - 1 < n)]
    · have h1 : l.length - n + n - 1 = l.length - 1 := by omega
      rw [h1]
termination_by l.length
decreasing_by
  have := List.length_pos.mpr hl
  simp only [List.length_drop]
  omega

/-- The chunks concatenate back to the original list. -/
theorem pychunks_flatten {α : Type} (l : List α) (n : ℕ) (hn : 0 < n) :
    (pychunks l n).flatten = l := by
  by_cases hl : l = []
  · subst hl
    rw [pychunks_nil]
    rfl
  · rw [pychunks_pos l n hn hl, List.flatten_cons,
      pychunks_flatten (l.drop n) n hn, List.take_append_drop]
termination_by l.length
decreasing_by
  have := List.length_pos.mpr hl
  simp only [List.length_drop]
  omega

/-- Folding the per-message step over parseable messages adds every
message to the processed count and the archive, and touches neither
the failed counter nor the call counter. -/
theorem foldl_processMessage_ok (lib : PyLib) (now : ℚ)
    (msgs : List GmailMessage) (s : GmailBackup.BatchState)
    (h : ∀ m ∈ msgs, ∃ p, EmailParser.parse_message lib m = .ok p) :
    (msgs.foldl (GmailBackup.processMessage lib now) s).processed =
        s.processed + msgs.length ∧
      (msgs.foldl (GmailBackup.processMessage lib now) s).failed = s.failed ∧
      (msgs.foldl (GmailBackup.processMessage lib now) s).calls = s.calls ∧
      ∃ new, (msgs.foldl (GmailBackup.processMessage lib now) s).archive =
          s.archive ++ new ∧ new.length = msgs.length := by
  induction msgs generalizing s with
  | nil => exact ⟨rfl, rfl, rfl, [], by simp, rfl⟩
  | cons m rest ih =>
    obtain ⟨p, hp⟩ := h m (List.mem_cons_self m rest)
    obtain ⟨h1, h2, h3, new, h4, h5⟩ :=
      ih (GmailBackup.processMessage lib now s m)
        (fun m' hm' => h m' (List.mem_cons_of_mem m hm'))
    have hstep : GmailBackup.processMessage lib now s m =
        { s with
          processed := s.processed + 1
          archive := s.archive ++
            [(MBOXGenerator.format_from_line lib now p, EmailParser.to_rfc822 p)] } := by
      simp [GmailBackup.processMessage, hp, MBOXGenerator.add_message]
    rw [List.foldl_cons] at *
    refine ⟨by rw [h1, hstep]; simp; omega, by rw [h2, hstep], by rw [h3, hstep],
      (MBOXGenerator.format_from_line lib now p, EmailParser.to_rfc822 p) :: new,
      ?_, by simpa using h5⟩
    rw [h4, hstep]
    simp

/-- A chunk whose retrieval call succeeds with one parseable message
per id contributes its full length to the processed counter, one
retrieval call, as many archive records, and no failures. -/
theorem processChunk_ok (oc : Oracles) (lib : PyLib) (now : ℚ)
    (st : GmailBackup.BatchState) (c : List String) (h : chunkOk oc lib c) :
    (GmailBackup.processChunk oc lib now st c).processed = st.processed + c.length ∧
      (GmailBackup.processChunk oc lib now st c).failed = st.failed ∧
      (GmailBackup.processChunk oc lib now st c).calls = st.calls + 1 ∧
      ∃ new, (GmailBackup.processChunk oc lib now st c).archive =
          st.archive ++ new ∧ new.length = c.length := by
  obtain ⟨msgs, ho, hl, hp⟩ := h
  have := foldl_processMessage_ok lib now msgs { st with calls := st.calls + 1 } hp
  simp only [GmailBackup.processChunk, ho]
  obtain ⟨h1, h2, h3, new, h4, h5⟩ := this
  exact ⟨by rw [h1, hl], by rw [h2], by rw [h3], new, by rw [h4], by rw [h5, hl]⟩

/-- A chunk whose retrieval call raises contributes its full length to
the failed counter and one retrieval call, and nothing else. -/
theorem processChunk_err (oc : Oracles) (lib : PyLib) (now : ℚ)
    (st : GmailBackup.BatchState) (c : List String) (e : String)
    (h : oc.batch_get_messages c = .error e) :
    GmailBackup.processChunk oc lib now st c =
      { st with failed := st.failed + c.length, calls := st.calls + 1 } := by
  simp [GmailBackup.processChunk, h]

/-- Folding the chunk step over all-successful chunks processes every
id of every chunk, issues one call per chunk and fails nothing. -/
theorem foldl_processChunk_ok (oc : Oracles) (lib : PyLib) (now : ℚ)
    (cs : List (List String)) (st : GmailBackup.BatchState)
    (h : ∀ c ∈ cs, chunkOk oc lib c) :
    (cs.foldl (GmailBackup.processChunk oc lib now) st).processed =
        st.processed + cs.flatten.length ∧
      (cs.foldl (GmailBackup.processChunk oc lib now) st).failed = st.failed ∧
      (cs.foldl (GmailBackup.processChunk oc lib now) st).calls = st.calls + cs.length ∧
      ∃ new, (cs.foldl (GmailBackup.processChunk oc lib now) st).archive =
          st.archive ++ new ∧ new.length = cs.flatten.length := by
  induction cs generalizing st with
  | nil => exact ⟨rfl, rfl, rfl, [], by simp, by simp⟩
  | cons c rest ih =>
    obtain ⟨p1, p2, p3, cnew, p4, p5⟩ :=
      processChunk_ok oc lib now st c (h c (List.mem_cons_self c rest))
    obtain ⟨h1, h2, h3, new, h4, h5⟩ :=
      ih (GmailBackup.processChunk oc lib now st c)
        (fun c' hc' => h c' (List.mem_cons_of_mem c hc'))
    rw [List.foldl_cons] at *
    refine ⟨by rw [h1, p1]; simp; omega, by rw [h2, p2], by rw [h3, p3]; simp; omega,
      cnew ++ new, ?_, ?_⟩
    · rw [h4, p4]
      simp
    · simp only [List.length_append, List.flatten_cons, h5, p5]

/-- C1: for every chunk size N greater than zero the id list is cut
into exactly the ceiling of L over N chunks whose concatenation is the
input list with no duplication and no omission; the batch phase of the
backup driver issues one batch_get call per size-hundred chunk, so the
ceiling of L over one hundred calls, and when every call succeeds with
one parseable message per id the processed count is L and the failed
count is zero. -/
theorem batch_retrieval_chunks_exact
    (oc : Oracles) (lib : PyLib) (now : ℚ) (ids : List String) (n : ℕ)
    (hn : 0 < n)
    (hok : ∀ c ∈ pychunks ids 100, chunkOk oc lib c) :
    (pychunks ids n).length = (ids.length + n - 1) / n ∧
      (pychunks ids n).flatten = ids ∧
      (GmailBackup.processBatches oc lib now ids 100).calls =
        (ids.length + 100 - 1) / 100 ∧
      (GmailBackup.processBatches oc lib now ids 100).processed = ids.length ∧
      (GmailBackup.processBatches oc lib now ids 100).failed = 0 := by
  obtain ⟨h1, h2, h3, new, h4, h5⟩ :=
    foldl_processChunk_ok oc lib now (pychunks ids 100) {} hok
  have hflat : (pychunks ids 100).flatten = ids :=
    pychunks_flatten ids 100 (by norm_num)
  have hlen : (pychunks ids 100).length = (ids.length + 100 - 1) / 100 :=
    pychunks_length ids 100 (by norm_num)
  refine ⟨pychunks_length ids n hn, pychunks_flatten ids n hn, ?_, ?_, ?_⟩
  · show (GmailBackup.processBatches oc lib now ids 100).calls = _
    rw [GmailBackup.processBatches, h3, hlen]
    simp
  · show (GmailBackup.processBatches oc lib now ids 100).processed = _
    rw [GmailBackup.processBatches, h1, hflat]
    simp
  · show (GmailBackup.processBatches oc lib now ids 100).failed = 0
    rw [GmailBackup.processBatches, h2]

/-- C1 witness: two hundred and fifty ids against an oracle whose
calls all succeed give exactly three batch_get calls, two hundred and
fifty processed and zero failed. -/
theorem batch_retrieval_chunks_exact_witness :
    (GmailBackup.processBatches ocAllOk lib0 0 ids250 100).calls = 3 ∧
      (GmailBackup.processBatches ocAllOk lib0 0 ids250 100).processed = 250 ∧
      (GmailBackup.processBatches ocAllOk lib0 0 ids250 100).failed = 0 := by
  have hok : ∀ c ∈ pychunks ids250 100, chunkOk ocAllOk lib0 c := by
    intro c _
    refine ⟨c.map mkTestMsg, rfl, by simp, ?_⟩
    intro m hm
    obtain ⟨s, _, rfl⟩ := List.mem_map.mp hm
    exact ⟨_, rfl⟩
  have h := batch_retrieval_chunks_exact ocAllOk lib0 0 ids250 100 (by norm_num) hok
  have hlen : ids250.length = 250 := by simp [ids250]
  refine ⟨?_, ?_, h.2.2.2.2⟩
  · rw [h.2.2.1, hlen]
  · rw [h.2.2.2.1, hlen]

/-- Every result the backup driver returns without raising reports
success, carries the processed count as its message count, and is
stamped with the driver entry time. -/
theorem backup_messages_ok_success (oc : Oracles) (lib : PyLib) (now : ℚ)
    (q : Option String) (mr : ℕ) (bt : String) (r : BackupResult)
    (es : List MBOXGenerator.ArchiveEntry)
    (h : GmailBackup.backup_messages oc lib now q mr bt = .ok (r, es)) :
    r.success = true ∧ r.message_count = r.messages_processed ∧
      r.start_time = now ∧ r.error = none := by
  simp only [GmailBackup.backup_messages] at h
  split at h
  · cases h
  · split at h <;>
      (rw [Except.ok.injEq, Prod.mk.injEq] at h
       obtain ⟨hr, _⟩ := h
       rw [← hr]
       exact ⟨rfl, rfl, rfl, rfl⟩)

/-- C4: when one chunk's batch_get call raises and every other chunk
succeeds with one parseable message per id, the batch phase counts
exactly the failing chunk's size as failed, continues with the
remaining chunks (processing and archiving every one of their ids, one
call per chunk), and every result the driver returns still reports
success. -/
theorem one_failed_chunk_counts_and_continues
    (oc : Oracles) (lib : PyLib) (now : ℚ) (ids : List String)
    (pre post : List (List String)) (ck : List String) (e : String)
    (hsplit : pychunks ids 100 = pre ++ ck :: post)
    (hfail : oc.batch_get_messages ck = .error e)
    (hpre : ∀ c ∈ pre, chunkOk oc lib c)
    (hpost : ∀ c ∈ post, chunkOk oc lib c) :
    (GmailBackup.processBatches oc lib now ids 100).failed = ck.length ∧
      (GmailBackup.processBatches oc lib now ids 100).processed =
        ids.length - ck.length ∧
      (GmailBackup.processBatches oc lib now ids 100).archive.length =
        ids.length - ck.length ∧
      (GmailBackup.processBatches oc lib now ids 100).calls =
        (pychunks ids 100).length ∧
      (∀ (q : Option String) (mr : ℕ) (bt : String) (r : BackupResult)
        (es : List MBOXGenerator.ArchiveEntry),
        GmailBackup.backup_messages oc lib now q mr bt = .ok (r, es) →
          r.success = true) := by
  have hflat : (pychunks ids 100).flatten = ids :=
    pychunks_flatten ids 100 (by norm_num)
  have hids : ids.length = pre.flatten.length + ck.length + post.flatten.length := by
    conv_lhs => rw [← hflat, hsplit]
    simp [List.flatten_append, List.flatten_cons]
    omega
  have hrun : GmailBackup.processBatches oc lib now ids 100 =
      post.foldl (GmailBackup.processChunk oc lib now)
        (GmailBackup.processChunk oc lib now
          (pre.foldl (GmailBackup.processChunk oc lib now) {}) ck) := by
    rw [GmailBackup.processBatches, hsplit, List.foldl_append, List.foldl_cons]
  obtain ⟨a1, a2, a3, new1, a4, a5⟩ :=
    foldl_processChunk_ok oc lib now pre ({} : GmailBackup.BatchState) hpre
  have hmid := processChunk_err oc lib now
    (pre.foldl (GmailBackup.processChunk oc lib now) {}) ck e hfail
  obtain ⟨b1, b2, b3, new2, b4, b5⟩ :=
    foldl_processChunk_ok oc lib now post
      (GmailBackup.processChunk oc lib now
        (pre.foldl (GmailBackup.processChunk oc lib now) {}) ck) hpost
  refine ⟨?_, ?_, ?_, ?_, ?_⟩
  · rw [hrun, b2, hmid]
    simp only [a2]
    omega
  · rw [hrun, b1, hmid]
    simp only [a1]
    simp only [hids]
    simp
    omega
  · rw [hrun, b4, hmid]
    simp only [a4]
    simp only [List.length_append]
    simp [a5, b5, hids]
    omega
  · rw [hrun, b3, hmid]
    simp only [a3]
    rw [hsplit]
    simp
    omega
  · intro q mr bt r es h
    exact (backup_messages_ok_success oc lib now q mr bt r es h).1

/-- C4 witness: one hundred and fifty ids whose second (fifty-id)
chunk fails give fifty failed, one hundred processed and archived, and
two batch_get calls. -/
theorem one_failed_chunk_counts_and_continues_witness :
    (GmailBackup.processBatches ocFailSecond lib0 0 ids150 100).failed = 50 ∧
      (GmailBackup.processBatches ocFailSecond lib0 0 ids150 100).processed = 100 ∧
      (GmailBackup.processBatches ocFailSecond lib0 0 ids150 100).archive.length = 100 ∧
      (GmailBackup.processBatches ocFailSecond lib0 0 ids150 100).calls = 2 := by
  have h150 : ids150.length = 150 := by simp [ids150]
  have hd : (ids150.drop 100).length = 50 := by simp [ids150]
  have ht : (ids150.take 100).length = 100 := by simp [ids150]
  have hne : ids150 ≠ [] := by
    intro hcon
    rw [hcon] at h150
    cases h150
  have hdne : ids150.drop 100 ≠ [] := by
    intro hcon
    rw [hcon] at hd
    cases hd
  have hsplit : pychunks ids150 100 = [ids150.take 100] ++ ids150.drop 100 :: [] := by
    rw [pychunks_pos ids150 100 (by norm_num) hne]
    rw [pychunks_small (ids150.drop 100) 100 (by norm_num) hdne (by rw [hd]; norm_num)]
    rfl
  have hfail : ocFailSecond.batch_get_messages (ids150.drop 100) =
      .error "network error" := by
    simp only [ocFailSecond]
    rw [if_pos hd]
  have hpre : ∀ c ∈ [ids150.take 100], chunkOk ocFailSecond lib0 c := by
    intro c hc
    rw [List.mem_singleton] at hc
    subst hc
    refine ⟨(ids150.take 100).map mkTestMsg, ?_, by simp, ?_⟩
    · simp only [ocFailSecond]
      rw [if_neg (by rw [ht]; norm_num)]
    · intro m hm
      obtain ⟨s, _, rfl⟩ := List.mem_map.mp hm
      exact ⟨_, rfl⟩
  have h := one_failed_chunk_counts_and_continues ocFailSecond lib0 0 ids150
    [ids150.take 100] [] (ids150.drop 100) "network error" hsplit hfail hpre
    (by intro c hc; cases hc)
  refine ⟨?_, ?_, ?_, ?_⟩
  · rw [h.1, hd]
  · rw [h.2.1, h150, hd]
  · rw [h.2.2.1, h150, hd]
  · rw [h.2.2.2.1, hsplit]
    rfl

/-- Looking up the key just assigned in a dict returns the assigned
value. -/
theorem lookupAssoc_insertAssoc {α : Type} (l : List (String × α)) (k : String)
    (v : α) : lookupAssoc (insertAssoc l k v) k = some v := by
  unfold insertAssoc
  split
  case isTrue h =>
    induction l with
    | nil => cases h
    | cons p t ih =>
      by_cases hp : p.1 = k
      · simp [lookupAssoc, hp]
      · have ht : t.any (fun q => q.1 = k) := by
          rcases List.any_eq_true.mp h with ⟨q, hq, hqk⟩
          rcases List.mem_cons.mp hq with rfl | hqt
          · exact absurd (of_decide_eq_true hqk) hp
          · exact List.any_eq_true.mpr ⟨q, hqt, hqk⟩
        simpa [lookupAssoc, hp] using ih ht
  case isFalse h =>
    have hnone : l.find? (fun p => p.1 = k) = none := by
      rw [List.find?_eq_none]
      intro p hp hpk
      exact h (List.any_eq_true.mpr ⟨p, hp, hpk⟩)
    simp [lookupAssoc, List.find?_append, hnone]

/-- Overwriting the value at one key of an association list leaves the
lookup of every other key unchanged. -/
theorem lookupAssoc_map_overwrite {α : Type} (l : List (String × α))
    (k k2 : String) (v : α) (hne : k2 ≠ k) :
    lookupAssoc (l.map (fun p => if p.1 = k then (k, v) else p)) k2 =
      lookupAssoc l k2 := by
  induction l with
  | nil => rfl
  | cons p t ih =>
    by_cases hp : p.1 = k
    · have hp2 : ¬ ((k, v).1 = k2) := fun hc => hne hc.symm
      have hp3 : ¬ (p.1 = k2) := by
        rw [hp]
        exact fun hc => hne hc.symm
      simp only [List.map_cons, if_pos hp, lookupAssoc] at ih ⊢
      rw [List.find?_cons_of_neg _ (by simpa using hp2),
        List.find?_cons_of_neg _ (by simpa using hp3)]
      exact ih
    · by_cases hk2 : p.1 = k2
      · simp only [List.map_cons, if_neg hp, lookupAssoc]
        rw [List.find?_cons_of_pos _ (by simpa using hk2),
          List.find?_cons_of_pos _ (by simpa using hk2)]
      · simp only [List.map_cons, if_neg hp, lookupAssoc] at ih ⊢
        rw [List.find?_cons_of_neg _ (by simpa using hk2),
          List.find?_cons_of_neg _ (by simpa using hk2)]
        exact ih

/-- Assigning one key of a dict leaves the lookup of every other key
unchanged. -/
theorem lookupAssoc_insertAssoc_ne {α : Type} (l : List (String × α))
    (k k2 : String) (v : α) (hne : k2 ≠ k) :
    lookupAssoc (insertAssoc l k v) k2 = lookupAssoc l k2 := by
  unfold insertAssoc
  split
  case isTrue h => exact lookupAssoc_map_overwrite l k k2 v hne
  case isFalse h =>
    have hkk : ¬ ((k, v).1 = k2) := fun hc => hne hc.symm
    simp only [lookupAssoc, List.find?_append]
    cases hf : List.find? (fun p => decide (p.1 = k2)) l with
    | some p => rfl
    | none =>
      rw [List.find?_cons_of_neg _ (by simpa using hkk)]
      rfl

/-- A listing call that returns an empty first page ends id collection
with no ids. -/
theorem collectIds_nil_page (oc : Oracles) (q : Option String) (mr : ℕ)
    (hmr : 0 < mr) (h : oc.list_messages q (min 100 mr) none = .ok ({ } : ListPage)) :
    GmailBackup.collectIds oc q mr [] none = .ok [] := by
  rw [GmailBackup.collectIds]
  simp [hmr, h]

/-- A listing call that raises propagates out of id collection. -/
theorem collectIds_err (oc : Oracles) (q : Option String) (mr : ℕ)
    (acc : List String) (tok : Option String) (e : String)
    (hlt : acc.length < mr)
    (h : oc.list_messages q (min 100 (mr - acc.length)) tok = .error e) :
    GmailBackup.collectIds oc q mr acc tok = .error e := by
  rw [GmailBackup.collectIds]
  simp [hlt, h]

/-- C5: neither entry operation raises to its caller: each returns a
result stamped with its start and end clock readings, and either the
run succeeded, with no error string and the message count populated
from the processed counter, or the driver raised and the run reports
failure with exactly the raised message captured as the error
string. -/
theorem orchestrator_total_and_captures_errors
    (oc : Oracles) (lib : PyLib) (w : GmailBackup.World) (user_id : String)
    (query : Option String) (max_results : Option ℕ) (t1 t2 t3 : ℚ) :
    ((GmailBackup.incremental_backup oc lib w user_id query max_results t1 t2 t3).1.start_time = t1 ∧
      (GmailBackup.incremental_backup oc lib w user_id query max_results t1 t2 t3).1.end_time = some t3 ∧
      (((GmailBackup.incremental_backup oc lib w user_id query max_results t1 t2 t3).1.success = true ∧
          (GmailBackup.incremental_backup oc lib w user_id query max_results t1 t2 t3).1.error = none ∧
          (GmailBackup.incremental_backup oc lib w user_id query max_results t1 t2 t3).1.message_count =
            (GmailBackup.incremental_backup oc lib w user_id query max_results t1 t2 t3).1.messages_processed) ∨
        ((GmailBackup.incremental_backup oc lib w user_id query max_results t1 t2 t3).1.success = false ∧
          ∃ e q2, (GmailBackup.incremental_backup oc lib w user_id query max_results t1 t2 t3).1.error = some e ∧
            GmailBackup.backup_messages oc lib t2 q2 (max_results.getD 1000) "incremental" = .error e))) ∧
    ((GmailBackup.full_backup oc lib w query max_results t1 t2 t3).1.start_time = t1 ∧
      (GmailBackup.full_backup oc lib w query max_results t1 t2 t3).1.end_time = some t3 ∧
      (((GmailBackup.full_backup oc lib w query max_results t1 t2 t3).1.success = true ∧
          (GmailBackup.full_backup oc lib w query max_results t1 t2 t3).1.error = none ∧
          (GmailBackup.full_backup oc lib w query max_results t1 t2 t3).1.message_count =
            (GmailBackup.full_backup oc lib w query max_results t1 t2 t3).1.messages_processed) ∨
        ((GmailBackup.full_backup oc lib w query max_results t1 t2 t3).1.success = false ∧
          ∃ e, (GmailBackup.full_backup oc lib w query max_results t1 t2 t3).1.error = some e ∧
            GmailBackup.backup_messages oc lib t2 query (max_results.getD 10000) "full" = .error e))) := by
  constructor
  · simp only [GmailBackup.incremental_backup]
    split
    case h_1 e heq => exact ⟨rfl, rfl, Or.inr ⟨rfl, e, _, rfl, heq⟩⟩
    case h_2 result entries heq =>
      obtain ⟨hs, hmc, _, herr⟩ := backup_messages_ok_success _ _ _ _ _ _ _ _ heq
      exact ⟨rfl, rfl, Or.inl ⟨hs, herr, hmc⟩⟩
  · simp only [GmailBackup.full_backup]
    split
    case h_1 e heq => exact ⟨rfl, rfl, Or.inr ⟨rfl, e, rfl, heq⟩⟩
    case h_2 result entries heq =>
      obtain ⟨hs, hmc, _, herr⟩ := backup_messages_ok_success _ _ _ _ _ _ _ _ heq
      exact ⟨rfl, rfl, Or.inl ⟨hs, herr, hmc⟩⟩

/-- C6: the persisted watermark of an incremental run is written
exactly when the run's result reports success, and the stored time is
the run's start reading t1 rather than its end reading t3; a failed
run leaves the whole world untouched. -/
theorem incremental_watermark_at_start_iff_success
    (oc : Oracles) (lib : PyLib) (w : GmailBackup.World) (user_id : String)
    (query : Option String) (max_results : Option ℕ) (t1 t2 t3 : ℚ) :
    ((GmailBackup.incremental_backup oc lib w user_id query max_results t1 t2 t3).1.success = true →
      lookupAssoc
          ((GmailBackup.incremental_backup oc lib w user_id query max_results t1 t2 t3).2.stateFile.getD [])
          user_id =
        some { last_backup_time := some t1, last_backup_type := some "incremental" }) ∧
    ((GmailBackup.incremental_backup oc lib w user_id query max_results t1 t2 t3).1.success = false →
      (GmailBackup.incremental_backup oc lib w user_id query max_results t1 t2 t3).2 = w) := by
  simp only [GmailBackup.incremental_backup]
  split
  case h_1 e heq =>
    constructor
    · intro hcon
      cases hcon
    · intro _
      rfl
  case h_2 result entries heq =>
    obtain ⟨hs, _, _, _⟩ := backup_messages_ok_success _ _ _ _ _ _ _ _ heq
    constructor
    · intro _
      simp only [hs, if_true, GmailBackup.update_backup_state, GmailBackup.writeArchive,
        Option.getD_some]
      exact lookupAssoc_insertAssoc _ user_id _
    · intro hcon
      rw [hs] at hcon
      cases hcon

/-- C6 witness: a run against an empty mailbox succeeds and stamps the
watermark of the account with the start reading one; a run whose
listing raises leaves the starting world untouched. -/
theorem incremental_watermark_at_start_iff_success_witness :
    lookupAssoc
        ((GmailBackup.incremental_backup ocEmptyList lib0 {} "me" none none 1 2 3).2.stateFile.getD [])
        "me" =
      some { last_backup_time := some 1, last_backup_type := some "incremental" } ∧
    (GmailBackup.incremental_backup ocListErr lib0 w9 "other" none none 1 2 3).2 = w9 := by
  have hc : GmailBackup.collectIds ocEmptyList none 1000 [] none = .ok [] :=
    collectIds_nil_page ocEmptyList none 1000 (by norm_num) rfl
  have hbm : GmailBackup.backup_messages ocEmptyList lib0 2 none 1000 "incremental" =
      .ok ({ success := true
             message_count := 0
             backup_path := GmailBackup.backup_folder ++ "/gmail_backup_" ++ "incremental"
               ++ "_" ++ lib0.strftime_ts 2 ++ ".mbox"
             start_time := 2 }, []) := by
    simp [GmailBackup.backup_messages, hc]
  have hsucc :
      (GmailBackup.incremental_backup ocEmptyList lib0 {} "me" none none 1 2 3).1.success = true := by
    simp [GmailBackup.incremental_backup, GmailBackup.get_last_backup_time, pyTruthy, hbm]
  have hcerr : GmailBackup.collectIds ocListErr none 1000 [] none = .error "HttpError 500" :=
    collectIds_err ocListErr none 1000 [] none "HttpError 500" (by norm_num) rfl
  have hbmerr : GmailBackup.backup_messages ocListErr lib0 2 none 1000 "incremental" =
      .error "HttpError 500" := by
    simp [GmailBackup.backup_messages, hcerr]
  have hfail :
      (GmailBackup.incremental_backup ocListErr lib0 w9 "other" none none 1 2 3).1.success = false := by
    simp [GmailBackup.incremental_backup, GmailBackup.get_last_backup_time, pyTruthy,
      w9, lookupAssoc, hbmerr]
  exact ⟨(incremental_watermark_at_start_iff_success ocEmptyList lib0 {} "me" none none 1 2 3).1 hsucc,
    (incremental_watermark_at_start_iff_success ocListErr lib0 w9 "other" none none 1 2 3).2 hfail⟩

/-- C10: full_backup neither reads nor writes the persisted backup
state (its watermark side of the world is returned unchanged, whether
the run succeeds or fails), and the only archive file it touches is
the one at its own fresh backup path. -/
theorem full_backup_touches_no_state
    (oc : Oracles) (lib : PyLib) (w : GmailBackup.World)
    (query : Option String) (max_results : Option ℕ) (t1 t2 t3 : ℚ) :
    (GmailBackup.full_backup oc lib w query max_results t1 t2 t3).2.stateFile = w.stateFile ∧
      ∀ path, path ≠ (GmailBackup.full_backup oc lib w query max_results t1 t2 t3).1.backup_path →
        lookupAssoc (GmailBackup.full_backup oc lib w query max_results t1 t2 t3).2.archives path =
          lookupAssoc w.archives path := by
  simp only [GmailBackup.full_backup]
  split
  case h_1 e heq => exact ⟨rfl, fun path _ => rfl⟩
  case h_2 result entries heq =>
    refine ⟨rfl, fun path hpath => ?_⟩
    simp only [GmailBackup.writeArchive]
    exact lookupAssoc_insertAssoc_ne w.archives result.backup_path path _ hpath

/-- C10 witness: a full run whose listing raises returns the starting
world: the watermark entry and the unrelated archive file are both
unchanged. -/
theorem full_backup_touches_no_state_witness :
    (GmailBackup.full_backup ocListErr lib0 w9 none none 1 2 3).2.stateFile = w9.stateFile ∧
      lookupAssoc (GmailBackup.full_backup ocListErr lib0 w9 none none 1 2 3).2.archives "old.mbox" =
        lookupAssoc w9.archives "old.mbox" := by
  have hcerr : GmailBackup.collectIds ocListErr none 10000 [] none = .error "HttpError 500" :=
    collectIds_err ocListErr none 10000 [] none "HttpError 500" (by norm_num) rfl
  have hbmerr : GmailBackup.backup_messages ocListErr lib0 2 none 10000 "full" =
      .error "HttpError 500" := by
    simp [GmailBackup.backup_messages, hcerr]
  have hpath : (GmailBackup.full_backup ocListErr lib0 w9 none none 1 2 3).1.backup_path = "" := by
    simp [GmailBackup.full_backup, hbmerr]
  have h := full_backup_touches_no_state ocListErr lib0 w9 none none 1 2 3
  refine ⟨h.1, h.2 "old.mbox" ?_⟩
  rw [hpath]
  decide

/-- The character built from a valid code point carries that code
point. -/
theorem char_toNat_ofNat_valid (n : ℕ) (h : n.isValidChar) :
    (Char.ofNat n).toNat = n := by
  simp only [Char.ofNat, dif_pos h, Char.ofNatAux, Char.toNat]
  rfl

/-- Rebuilding a character from its own code point is the identity. -/
theorem char_ofNat_toNat (c : Char) : Char.ofNat c.toNat = c := by
  have hv : c.toNat.isValidChar := c.valid
  apply Char.ext
  apply UInt32.ext
  exact char_toNat_ofNat_valid c.toNat hv

/-- Lowercasing a character twice is the same as lowercasing it
once. -/
theorem pyLowerChar_idem (c : Char) : pyLowerChar (pyLowerChar c) = pyLowerChar c := by
  unfold pyLowerChar
  by_cases h : 65 ≤ c.toNat ∧ c.toNat ≤ 90
  · rw [if_pos h]
    have hv : (c.toNat + 32).isValidChar := Or.inl (by omega)
    have ht : (Char.ofNat (c.toNat + 32)).toNat = c.toNat + 32 :=
      char_toNat_ofNat_valid _ hv
    rw [if_neg]
    omega
  · rw [if_neg h, if_neg h]

/-- Lowercasing a string twice is the same as lowercasing it once. -/
theorem pyLowerStr_idem (s : String) : pyLowerStr (pyLowerStr s) = pyLowerStr s := by
  simp only [pyLowerStr, List.map_map]
  congr 1
  apply List.map_congr_left
  intro c _
  exact pyLowerChar_idem c

/-- Assigning an already present key leaves the key list unchanged. -/
theorem insertAssoc_keys_of_mem {α : Type} (l : List (String × α)) (k : String)
    (v : α) (h : l.any (fun p => p.1 = k) = true) :
    (insertAssoc l k v).map Prod.fst = l.map Prod.fst := by
  unfold insertAssoc
  rw [if_pos h, List.map_map]
  apply List.map_congr_left
  intro p _
  by_cases hp : p.1 = k
  · simp [hp]
  · simp [hp]

/-- Assigning a fresh key appends the binding at the end. -/
theorem insertAssoc_of_not_mem {α : Type} (l : List (String × α)) (k : String)
    (v : α) (h : ¬ l.any (fun p => p.1 = k) = true) :
    insertAssoc l k v = l ++ [(k, v)] := by
  unfold insertAssoc
  rw [if_neg h]

/-- The header dict built by the parser has lower-cased keys with no
duplicates, whatever accumulator with those properties the fold starts
from. -/
theorem buildHeaders_foldl_keys (gh : List GmailHeader)
    (acc : List (String × String))
    (h1 : ∀ p ∈ acc, pyLowerStr p.1 = p.1) (h2 : (acc.map Prod.fst).Nodup) :
    (∀ p ∈ gh.foldl (fun acc h => insertAssoc acc (pyLowerStr h.name) h.value) acc,
        pyLowerStr p.1 = p.1) ∧
      ((gh.foldl (fun acc h => insertAssoc acc (pyLowerStr h.name) h.value) acc).map
          Prod.fst).Nodup := by
  induction gh generalizing acc with
  | nil => exact ⟨h1, h2⟩
  | cons hd t ih =>
    rw [List.foldl_cons]
    apply ih
    · intro p hp
      by_cases hmem : acc.any (fun q => q.1 = pyLowerStr hd.name) = true
      · unfold insertAssoc at hp
        rw [if_pos hmem] at hp
        obtain ⟨q, hq, hqe⟩ := List.mem_map.mp hp
        by_cases hqk : q.1 = pyLowerStr hd.name
        · rw [← hqe]
          simp only [if_pos hqk]
          exact pyLowerStr_idem hd.name
        · rw [← hqe]
          simp only [if_neg hqk]
          exact h1 q hq
      · rw [insertAssoc_of_not_mem acc _ hd.value hmem] at hp
        rcases List.mem_append.mp hp with hpl | hpr
        · exact h1 p hpl
        · rw [List.mem_singleton.mp hpr]
          exact pyLowerStr_idem hd.name
    · by_cases hmem : acc.any (fun q => q.1 = pyLowerStr hd.name) = true
      · rw [insertAssoc_keys_of_mem acc _ hd.value hmem]
        exact h2
      · rw [insertAssoc_of_not_mem acc _ hd.value hmem, List.map_append]
        rw [List.nodup_append]
        refine ⟨h2, List.nodup_singleton _, ?_⟩
        intro x hx hx1
        simp only [List.map_singleton, List.mem_singleton] at hx1
        obtain ⟨q, hq, hqe⟩ := List.mem_map.mp hx
        apply hmem
        rw [List.any_eq_true]
        refine ⟨q, hq, decide_eq_true ?_⟩
        rw [hqe, hx1]

/-- Rebuilding the header dict from its own entries (as the round-trip
decode of the serialised message does) returns it unchanged, for any
entry list with lower-cased duplicate-free keys. -/
theorem buildHeaders_foldl_fixed (l : List (String × String))
    (acc : List (String × String))
    (hlow : ∀ p ∈ l, pyLowerStr p.1 = p.1)
    (hnd : ((acc ++ l).map Prod.fst).Nodup) :
    (l.map (fun p => ({ name := p.1, value := p.2 } : GmailHeader))).foldl
        (fun acc h => insertAssoc acc (pyLowerStr h.name) h.value) acc = acc ++ l := by
  induction l generalizing acc with
  | nil => simp
  | cons hd t ih =>
    rw [List.map_cons, List.foldl_cons]
    have hk : pyLowerStr hd.1 = hd.1 := hlow hd (List.mem_cons_self hd t)
    have hnotin : ¬ acc.any (fun q => q.1 = pyLowerStr hd.1) = true := by
      intro hcon
      rw [List.any_eq_true] at hcon
      obtain ⟨q, hq, hqe⟩ := hcon
      rw [List.map_append, List.nodup_append] at hnd
      apply hnd.2.2 (List.mem_map_of_mem Prod.fst hq)
      rw [List.map_cons, List.mem_cons]
      left
      have := of_decide_eq_true hqe
      rw [hk] at this
      exact this
    have hstep : insertAssoc acc (pyLowerStr hd.1) hd.2 = acc ++ [hd] := by
      rw [insertAssoc_of_not_mem acc _ hd.2 hnotin, hk]
    rw [hstep]
    have happ : (acc ++ [hd]) ++ t = acc ++ hd :: t := by
      rw [List.append_assoc]
      rfl
    rw [ih (acc ++ [hd]) (fun p hp => hlow p (List.mem_cons_of_mem hd hp))
      (by rw [happ]; exact hnd), happ]

/-- The round-trip rebuild of the parser's header dict is the
identity. -/
theorem buildHeaders_stable (gh : List GmailHeader) :
    EmailParser.buildHeaders
        ((EmailParser.buildHeaders gh).map
          (fun p => ({ name := p.1, value := p.2 } : GmailHeader))) =
      EmailParser.buildHeaders gh := by
  obtain ⟨hlow, hnd⟩ := buildHeaders_foldl_keys gh []
    (by intro p hp; cases hp) (by simp)
  have := buildHeaders_foldl_fixed (EmailParser.buildHeaders gh) [] hlow
    (by simpa using hnd)
  simpa [EmailParser.buildHeaders] using this

/-- Content with no carriage returns is left unchanged by line
recognition. -/
theorem normalizeLineSeps_of_no_cr (l : List Char) (h : '\r' ∉ l) :
    normalizeLineSeps l = l := by
  induction l with
  | nil => rfl
  | cons c rest ih =>
    have hc : c ≠ '\r' := by
      intro hcon
      exact h (hcon ▸ List.mem_cons_self c rest)
    have hrest : '\r' ∉ rest := fun hcon => h (List.mem_cons_of_mem c hcon)
    rw [normalizeLineSeps]
    · rw [ih hrest]
    · intro r h1 _
      exact hc h1
    · exact hc

/-- The content manager's text payload is never empty: it always ends
with the appended or retained trailing newline. -/
theorem encode_text_ne_empty (s : String) : EmailParser.encode_text s ≠ "" := by
  simp only [EmailParser.encode_text]
  split
  · rename_i hl
    intro hcon
    have hd : normalizeLineSeps s.data = [] := congrArg String.data hcon
    rw [hd] at hl
    cases hl
  · rename_i hl
    intro hcon
    have hd : normalizeLineSeps s.data ++ ['\n'] = [] := congrArg String.data hcon
    simp at hd

/-- Content that is carriage-return free and already ends with a
newline passes through the content manager unchanged. -/
theorem encode_text_of_normalized (s : String) (hr : '\r' ∉ s.data)
    (hl : s.data.getLast? = some '\n') : EmailParser.encode_text s = s := by
  simp only [EmailParser.encode_text, normalizeLineSeps_of_no_cr s.data hr]
  rw [if_pos hl]

/-- Raw-mode extraction of the serialised multipart/alternative pair
recovers the line-normalised plain and html contents. -/
theorem extract_toMime_alternative (lib : PyLib) (h t : String)
    (hutf : ∀ s, lib.utf8_ignore (lib.utf8_encode s) = s)
    (henc : ∀ s, s ≠ "" → lib.utf8_encode s ≠ []) :
    EmailParser.extract_body_from_email lib
      (EmailParser.Rfc822Content.toMime lib (.alternative h t)) =
      (EmailParser.encode_text t, EmailParser.encode_text h) := by
  have e1 : strContains "" "attachment" = false := by decide
  have e2 : ¬ (("text/html" : String) = "text/plain") := by decide
  have e3 : ¬ (("text/plain" : String) = "text/html") := by decide
  have hne1 := henc _ (encode_text_ne_empty h)
  have hne2 := henc _ (encode_text_ne_empty t)
  simp [EmailParser.Rfc822Content.toMime, EmailParser.extract_body_from_email,
    MimeMsg.isMultipart, MimeMsg.walkNodes, MimeMsg.walkList, MimeMsg.disposition,
    MimeMsg.payloadBytes, MimeMsg.ctype, e1, e2, e3, hne1, hne2, hutf]

/-- Raw-mode extraction of the serialised single html part recovers
the line-normalised html content. -/
theorem extract_toMime_single_html (lib : PyLib) (h : String)
    (hutf : ∀ s, lib.utf8_ignore (lib.utf8_encode s) = s)
    (henc : ∀ s, s ≠ "" → lib.utf8_encode s ≠ []) :
    EmailParser.extract_body_from_email lib
      (EmailParser.Rfc822Content.toMime lib (.single "html" h)) =
      ("", EmailParser.encode_text h) := by
  have e1 : strContains "text/html" "text/plain" = false := by decide
  have e2 : strContains "text/html" "text/html" = true := by decide
  have hne := henc _ (encode_text_ne_empty h)
  simp [EmailParser.Rfc822Content.toMime, EmailParser.extract_body_from_email,
    MimeMsg.isMultipart, MimeMsg.payloadBytes, MimeMsg.ctype,
    hne, e1, e2, hutf]

/-- Raw-mode extraction of the serialised single plain part recovers
the line-normalised text content. -/
theorem extract_toMime_single_plain (lib : PyLib) (t : String)
    (hutf : ∀ s, lib.utf8_ignore (lib.utf8_encode s) = s)
    (henc : ∀ s, s ≠ "" → lib.utf8_encode s ≠ []) :
    EmailParser.extract_body_from_email lib
      (EmailParser.Rfc822Content.toMime lib (.single "plain" t)) =
      (EmailParser.encode_text t, "") := by
  have e1 : strContains "text/plain" "text/plain" = true := by decide
  have hne := henc _ (encode_text_ne_empty t)
  simp [EmailParser.Rfc822Content.toMime, EmailParser.extract_body_from_email,
    MimeMsg.isMultipart, MimeMsg.payloadBytes, MimeMsg.ctype,
    hne, e1, hutf]

/-- The concrete collaborator pair of lib0 satisfies the UTF-8
encode-decode inverse law. -/
theorem lib0_utf_roundtrip (s : String) :
    lib0.utf8_ignore (lib0.utf8_encode s) = s := by
  show String.mk ((s.data.map Char.toNat).map Char.ofNat) = s
  rw [List.map_map]
  have hmap : s.data.map (Char.ofNat ∘ Char.toNat) = s.data := by
    have : s.data.map (Char.ofNat ∘ Char.toNat) = s.data.map id :=
      List.map_congr_left (fun c _ => char_ofNat_toNat c)
    rw [this, List.map_id]
  rw [hmap]

/-- The concrete encoder of lib0 sends nonempty strings to nonempty
byte lists. -/
theorem lib0_encode_ne_nil (s : String) (hs : s ≠ "") :
    lib0.utf8_encode s ≠ [] := by
  show ¬ s.data.map Char.toNat = []
  intro hcon
  apply hs
  rw [List.map_eq_nil_iff] at hcon
  cases s with
  | mk data =>
    simp only [String.data] at hcon
    rw [hcon]

/-- Decoding the serialised form of an encoded normalized message
recovers whichever body rendition was populated, passed through the
content manager's line normalisation. -/
theorem decode_to_rfc822_body (lib : PyLib) (q : ParsedMessage)
    (hutf : ∀ s, lib.utf8_ignore (lib.utf8_encode s) = s)
    (henc : ∀ s, s ≠ "" → lib.utf8_encode s ≠ []) :
    (q.body.text ≠ "" →
      (EmailParser.decode_rfc822 lib (EmailParser.to_rfc822 q)).body.text =
        EmailParser.encode_text q.body.text) ∧
    (q.body.html ≠ "" →
      (EmailParser.decode_rfc822 lib (EmailParser.to_rfc822 q)).body.html =
        EmailParser.encode_text q.body.html) := by
  constructor
  · intro htext
    by_cases hh : q.body.html = ""
    · simp only [EmailParser.decode_rfc822, EmailParser.to_rfc822, ne_eq]
      rw [if_neg (by simp [hh]), if_pos htext,
        extract_toMime_single_plain lib q.body.text hutf henc]
    · simp only [EmailParser.decode_rfc822, EmailParser.to_rfc822, ne_eq]
      rw [if_pos hh, if_pos htext,
        extract_toMime_alternative lib q.body.html q.body.text hutf henc]
  · intro hhtml
    by_cases ht : q.body.text = ""
    · simp only [EmailParser.decode_rfc822, EmailParser.to_rfc822, ne_eq]
      rw [if_pos hhtml, if_neg (by simp [ht]),
        extract_toMime_single_html lib q.body.html hutf henc]
    · simp only [EmailParser.decode_rfc822, EmailParser.to_rfc822, ne_eq]
      rw [if_pos hhtml, if_pos ht,
        extract_toMime_alternative lib q.body.html q.body.text hutf henc]

/-- C2 counterexample: the round trip does not return the same body
content.  For the concrete message whose decoded text body is the
newline-free string SGVsbG8=, encoding with to_rfc822 and decoding the
serialised result yields that text with a trailing newline appended by
the content manager, so the populated rendition comes back altered. -/
theorem codec_roundtrip_alters_content :
    EmailParser.parse_message lib0 msg2 = .ok p2 ∧
      p2.body.text = "SGVsbG8=" ∧
      (EmailParser.decode_rfc822 lib0 (EmailParser.to_rfc822 p2)).body.text =
        "SGVsbG8=\n" ∧
      (EmailParser.decode_rfc822 lib0 (EmailParser.to_rfc822 p2)).body.text ≠
        p2.body.text := by
  refine ⟨rfl, rfl, by decide, by decide⟩

/-- C2 amended: for every raw provider message whose decode succeeds,
encoding the normalized message with to_rfc822 and decoding the
serialised RFC 822 result preserves the subject, from and to fields
exactly, and whichever of the text and html renditions was populated
comes back populated with the same content up to the content manager's
line normalisation: carriage-return line endings become newlines and a
single trailing newline is appended when the content does not end with
one; content that is carriage-return free and newline-terminated is
preserved exactly.  The two hypotheses on the library record are the
UTF-8 contract: decoding inverts encoding and a nonempty string
encodes to nonempty bytes. -/
theorem codec_roundtrip_preserves_upto_newline
    (lib : PyLib) (msg : GmailMessage) (p : ParsedMessage)
    (hp : EmailParser.parse_message lib msg = .ok p)
    (hutf : ∀ s, lib.utf8_ignore (lib.utf8_encode s) = s)
    (henc : ∀ s, s ≠ "" → lib.utf8_encode s ≠ []) :
    (EmailParser.decode_rfc822 lib (EmailParser.to_rfc822 p)).subject = p.subject ∧
      (EmailParser.decode_rfc822 lib (EmailParser.to_rfc822 p)).from_ = p.from_ ∧
      (EmailParser.decode_rfc822 lib (EmailParser.to_rfc822 p)).to_ = p.to_ ∧
      (p.body.text ≠ "" →
        (EmailParser.decode_rfc822 lib (EmailParser.to_rfc822 p)).body.text =
          EmailParser.encode_text p.body.text) ∧
      (p.body.html ≠ "" →
        (EmailParser.decode_rfc822 lib (EmailParser.to_rfc822 p)).body.html =
          EmailParser.encode_text p.body.html) ∧
      (∀ s : String, '\r' ∉ s.data → s.data.getLast? = some '\n' →
        EmailParser.encode_text s = s) := by
  simp only [EmailParser.parse_message] at hp
  split at hp
  · cases hp
  · rename_i body attachments heq
    rw [Except.ok.injEq] at hp
    subst hp
    have hstab := buildHeaders_stable msg.payload.headers
    refine ⟨?_, ?_, ?_, ?_, ?_, ?_⟩
    · simp only [EmailParser.decode_rfc822, EmailParser.to_rfc822, hstab]
    · simp only [EmailParser.decode_rfc822, EmailParser.to_rfc822, hstab]
    · simp only [EmailParser.decode_rfc822, EmailParser.to_rfc822, hstab]
    · exact (decode_to_rfc822_body lib _ hutf henc).1
    · exact (decode_to_rfc822_body lib _ hutf henc).2
    · exact fun s hr hl => encode_text_of_normalized s hr hl

/-- C2 amended witness: the concrete message with addressing headers
and a populated text body round-trips with subject, from and to
preserved and the text coming back as its line-normalised form. -/
theorem codec_roundtrip_preserves_upto_newline_witness :
    ∃ p, EmailParser.parse_message lib0 msg2 = .ok p ∧
      p.body.text ≠ "" ∧
      (EmailParser.decode_rfc822 lib0 (EmailParser.to_rfc822 p)).subject = p.subject ∧
      (EmailParser.decode_rfc822 lib0 (EmailParser.to_rfc822 p)).from_ = p.from_ ∧
      (EmailParser.decode_rfc822 lib0 (EmailParser.to_rfc822 p)).to_ = p.to_ ∧
      (EmailParser.decode_rfc822 lib0 (EmailParser.to_rfc822 p)).body.text =
        EmailParser.encode_text p.body.text := by
  have hpm : EmailParser.parse_message lib0 msg2 = .ok p2 := rfl
  have htext : p2.body.text ≠ "" := by decide
  have h := codec_roundtrip_preserves_upto_newline lib0 msg2 p2 hpm
    lib0_utf_roundtrip lib0_encode_ne_nil
  exact ⟨p2, hpm, htext, h.1, h.2.1, h.2.2.1, h.2.2.2.1 htext⟩

end GmailCore
